import Mathlib

/-!
# fabric-sdk-go: event service contract, providers, request context, request options

Shallow embedding of

* `pkg/context/api/fab/eventservice.go`: the event value objects and the
  `EventService` / `EventClient` interfaces.  The interfaces have no
  implementation among the sources, so their behaviour is modelled from the
  specification (registry, dispatcher, connection manager);
* `pkg/fab/mocks/mockfabricprovider.go`: `MockInfraProvider`;
* `pkg/fabsdk/context.go`: `identityOptions`, `ContextOption`, `newIdentity`;
* `pkg/context/context.go`: `Provider`, `NewProvider`, `NewRequest`, `RequestClientContext`;
* `pkg/client/resmgmt/opts.go`: `WithTargets`, `WithTargetURLs`, `WithOrdererURL`.
-/

namespace Fab

/-! ## Event value objects (`eventservice.go`) -/

/-- Modelled from the spec: `pb.TxValidationCode` (third-party protobuf enum), the outcome of
committing a transaction, kept as its numeric code. -/
abbrev TxValidationCode := Nat

/-- Modelled from the spec: a chaincode event embedded in a transaction (third-party protobuf
type): the emitting chaincode and the event name. -/
structure ChaincodeEventInfo where
  ChaincodeID : String
  EventName : String
  deriving DecidableEq, Repr

/-- Modelled from the spec: a committed transaction inside a block (third-party protobuf type):
identifier, validation code and the chaincode events attached during execution. -/
structure Transaction where
  TxID : String
  ValidationCode : TxValidationCode
  Events : List ChaincodeEventInfo
  deriving DecidableEq, Repr

/-- Modelled from the spec: `cb.Block` (third-party protobuf type), an ordered batch of committed
transactions plus metadata. -/
structure Block where
  Number : Nat
  Transactions : List Transaction
  deriving DecidableEq, Repr

/-- Modelled from the spec: `pb.FilteredBlock` (third-party protobuf type), the reduced view of a
block. -/
structure FilteredBlock where
  Number : Nat
  Transactions : List Transaction
  deriving DecidableEq, Repr

/-- `BlockEvent` contains the data for the block event. -/
structure BlockEvent where
  Block : Block
  deriving DecidableEq, Repr

/-- `FilteredBlockEvent` contains the data for a filtered block event. -/
structure FilteredBlockEvent where
  FilteredBlock : FilteredBlock
  deriving DecidableEq, Repr

/-- `TxStatusEvent` contains the data for a transaction status event. -/
structure TxStatusEvent where
  TxID : String
  TxValidationCode : TxValidationCode
  deriving DecidableEq, Repr

/-- `CCEvent` contains the data for a chaincode event. -/
structure CCEvent where
  TxID : String
  ChaincodeID : String
  EventName : String
  deriving DecidableEq, Repr

/-- `ConnectionEvent` is sent when the client disconnects from or reconnects to the event
server; `Err` is the disconnect error. -/
structure ConnectionEvent where
  Connected : Bool
  Err : Option String
  deriving DecidableEq, Repr

/-- `Registration` is the handle returned from a successful `RegisterXXXEvent` (an empty
interface in the source).  Modelled from the spec: an index that is never reused. -/
abbrev Registration := Nat

/-- `BlockFilter` is a function that determines whether a block event should be delivered. -/
abbrev BlockFilter := Block → Bool

/-! ## Regular expressions

The event-name pattern is handled by Go's `regexp` package, which is no part of the
repository; the model takes the engine as a parameter. -/

/-- Modelled from the spec: the regular-expression engine behind the chaincode event-name
pattern: compilation at registration time (which may reject the pattern) and matching of a
pre-compiled pattern against an event name. -/
structure RegexpEngine where
  Compiled : Type
  compile : String → Option Compiled
  matchString : Compiled → String → Bool

/-- Modelled from the spec: an atom of the pattern fragment used by the examples: any
character, or one literal character. -/
inductive Atom where
  | any
  | lit (c : Char)
  deriving DecidableEq, Repr

/-- Modelled from the spec: one pattern item, an atom that is optionally starred. -/
structure Item where
  atom : Atom
  star : Bool
  deriving DecidableEq, Repr

/-- Modelled from the spec: a compiled pattern of the fragment: optional `^`, items, optional
`$`. -/
structure MiniPattern where
  anchoredStart : Bool
  items : List Item
  anchoredEnd : Bool
  deriving DecidableEq, Repr

/-- Modelled from the spec: whether an atom accepts a character. -/
def Atom.accepts : Atom → Char → Bool
  | .any, _ => true
  | .lit c, d => c == d

/-- Modelled from the spec: greedy-or-not loop of a starred atom: the continuation succeeds
here, or the atom consumes one character and the loop goes on. -/
def starLoop (a : Atom) (k : List Char → Bool) : List Char → Bool
  | [] => k []
  | t :: ts => k (t :: ts) || (a.accepts t && starLoop a k ts)

/-- Modelled from the spec: match the items at the start of the text. -/
def matchHere (anchoredEnd : Bool) : List Item → List Char → Bool
  | [], text => !anchoredEnd || text.isEmpty
  | ⟨a, false⟩ :: rest, text =>
    match text with
    | [] => false
    | t :: ts => a.accepts t && matchHere anchoredEnd rest ts
  | ⟨a, true⟩ :: rest, text => starLoop a (matchHere anchoredEnd rest) text

/-- Modelled from the spec: unanchored search: a match at some position of the text. -/
def matchAnywhere (anchoredEnd : Bool) (items : List Item) : List Char → Bool
  | [] => matchHere anchoredEnd items []
  | t :: ts => matchHere anchoredEnd items (t :: ts) || matchAnywhere anchoredEnd items ts

/-- Modelled from the spec: `MatchString` for the fragment (search semantics, as in Go). -/
def MiniPattern.matchString (p : MiniPattern) (s : String) : Bool :=
  if p.anchoredStart then matchHere p.anchoredEnd p.items s.data
  else matchAnywhere p.anchoredEnd p.items s.data

/-- Modelled from the spec: parse the body of a pattern: a character followed by `*` is a
starred atom, `.` is any character; a dangling `*` is rejected. -/
def parseItems : List Char → Option (List Item × Bool)
  | [] => some ([], false)
  | ['$'] => some ([], true)
  | '*' :: _ => none
  | c :: '*' :: rest =>
    (parseItems rest).map fun r => (⟨if c = '.' then .any else .lit c, true⟩ :: r.1, r.2)
  | c :: rest =>
    (parseItems rest).map fun r => (⟨if c = '.' then .any else .lit c, false⟩ :: r.1, r.2)

/-- Modelled from the spec: `Compile` for the fragment. -/
def MiniPattern.compile (s : String) : Option MiniPattern :=
  match s.data with
  | '^' :: rest => (parseItems rest).map fun r => ⟨true, r.1, r.2⟩
  | cs => (parseItems cs).map fun r => ⟨false, r.1, r.2⟩

/-- Modelled from the spec: the fragment engine, used for the concrete patterns of the
examples. -/
def miniRegexp : RegexpEngine where
  Compiled := MiniPattern
  compile := MiniPattern.compile
  matchString := MiniPattern.matchString

/-! ## Subscriber registry and channels (modelled from the specification) -/

/-- Modelled from the spec: the typed events that travel on delivery channels (the four event
value objects of `eventservice.go`). -/
inductive Event where
  | block (e : BlockEvent)
  | filteredBlock (e : FilteredBlockEvent)
  | txStatus (e : TxStatusEvent)
  | cc (e : CCEvent)
  deriving DecidableEq, Repr

/-- Modelled from the spec: a raw event received from the upstream source: a full block or a
filtered block. -/
inductive RawEvent where
  | block (b : Block)
  | filteredBlock (fb : FilteredBlock)
  deriving DecidableEq, Repr

/-- Modelled from the spec: the subscriber record, a tagged variant: block subscriber with an
optional single filter, filtered-block subscriber, chaincode subscriber (identifier and
compiled event-name pattern), transaction-status subscriber (identifier). -/
inductive Subscriber (E : RegexpEngine) where
  | block (filter : Option BlockFilter)
  | filteredBlock
  | chaincode (ccID : String) (pattern : E.Compiled)
  | txStatus (txID : String)

/-- Modelled from the spec: a delivery channel seen from outside: the events sent on it, oldest
first, and how many times it has been closed. -/
structure Channel where
  delivered : List Event
  closes : Nat
  deriving DecidableEq, Repr

/-- Modelled from the spec: connection state of the connection manager. -/
inductive ConnState where
  | Disconnected
  | Connecting
  | Connected
  | Closing
  | Closed
  deriving DecidableEq, Repr

/-- Modelled from the spec: error taxonomy of the event service. -/
inductive EventError where
  | InvalidArgument
  | PermissionDenied
  | ServiceClosed
  | ConnectionTimeout
  | ConnectionError
  deriving DecidableEq, Repr

/-- Modelled from the spec: the state behind an `EventClient`: connection state, subscriber
registry (handle to record), every delivery channel handed out so far, the next fresh handle
and the connection events emitted to the internal listener. -/
structure Service (E : RegexpEngine) where
  conn : ConnState
  registry : List (Registration × Subscriber E)
  channels : List (Registration × Channel)
  next : Registration
  connEvents : List ConnectionEvent

variable {E : RegexpEngine}

/-- Modelled from the spec: a fresh service: disconnected, nothing registered. -/
def Service.init : Service E :=
  { conn := .Disconnected, registry := [], channels := [], next := 0, connEvents := [] }

/-- Modelled from the spec: registry lookup by handle. -/
def lookupSub (reg : List (Registration × Subscriber E)) (r : Registration) :
    Option (Subscriber E) :=
  (reg.find? fun p => p.1 == r).map Prod.snd

/-- Modelled from the spec: the channel that was handed out with a handle. -/
def lookupChan (chs : List (Registration × Channel)) (r : Registration) : Option Channel :=
  (chs.find? fun p => p.1 == r).map Prod.snd

/-- Modelled from the spec: a channel after one more event was sent on it. -/
def Channel.push (c : Channel) (ev : Event) : Channel :=
  { c with delivered := c.delivered ++ [ev] }

/-- Modelled from the spec: a channel after a sequence of events was sent on it. -/
def Channel.pushAll (c : Channel) (evs : List Event) : Channel :=
  { c with delivered := c.delivered ++ evs }

/-- Modelled from the spec: a channel after one more close. -/
def Channel.close (c : Channel) : Channel :=
  { c with closes := c.closes + 1 }

/-- Modelled from the spec: send one event on the channel of a handle.  Of the two backpressure
policies the spec allows, this is the blocking one: a send waits for room, so every send
completes and the event joins the channel's sequence. -/
def send (chs : List (Registration × Channel)) (r : Registration) (ev : Event) :
    List (Registration × Channel) :=
  chs.map fun p => if p.1 = r then (p.1, p.2.push ev) else p

/-- Modelled from the spec: close the channel of a handle. -/
def closeChan (chs : List (Registration × Channel)) (r : Registration) :
    List (Registration × Channel) :=
  chs.map fun p => if p.1 = r then (p.1, p.2.close) else p

/-! ## Filter engine -/

/-- Modelled from the spec: block filter: deliver if no filter is set, or if the filter predicate
evaluates true on the raw block. -/
def blockPasses (filter : Option BlockFilter) (b : Block) : Bool :=
  match filter with
  | none => true
  | some f => f b

/-- Modelled from the spec: filter engine: block subscribers take a block when no filter is set
or the filter is true on the raw block; filtered-block subscribers always; chaincode
subscribers on exact identifier equality and a pattern match of the event name;
transaction-status subscribers on exact identifier equality. -/
def Subscriber.accepts : Subscriber E → Event → Bool
  | .block filter, .block e => blockPasses filter e.Block
  | .filteredBlock, .filteredBlock _ => true
  | .chaincode ccID pattern, .cc e => e.ChaincodeID == ccID && E.matchString pattern e.EventName
  | .txStatus txID, .txStatus e => e.TxID == txID
  | _, _ => false

/-! ## Dispatcher -/

/-- Modelled from the spec: sub-events of one transaction: its status, then its chaincode
events. -/
def txEvents (tx : Transaction) : List Event :=
  .txStatus ⟨tx.TxID, tx.ValidationCode⟩ ::
    tx.Events.map fun ce => .cc ⟨tx.TxID, ce.ChaincodeID, ce.EventName⟩

/-- Modelled from the spec: classification of a raw event into the typed events derived from
it: the block (or filtered block) itself and the sub-events of each transaction. -/
def deriveEvents : RawEvent → List Event
  | .block b => .block ⟨b⟩ :: b.Transactions.flatMap txEvents
  | .filteredBlock fb => .filteredBlock ⟨fb⟩ :: fb.Transactions.flatMap txEvents

/-- Modelled from the spec: deliver one typed event to every subscriber of the registry
snapshot whose filter accepts it. -/
def deliver (snapshot : List (Registration × Subscriber E)) (ev : Event)
    (chs : List (Registration × Channel)) : List (Registration × Channel) :=
  snapshot.foldl (fun acc p => if p.2.accepts ev then send acc p.1 ev else acc) chs

/-- Modelled from the spec: one dispatch pass: classify the raw event, take the registry
snapshot, deliver each derived event to the matching channels. -/
def dispatch (s : Service E) (raw : RawEvent) : Service E :=
  { s with
    channels := List.foldl (fun acc ev => deliver s.registry ev acc) s.channels (deriveEvents raw) }

/-! ## Event service façade -/

/-- Modelled from the spec: registry insert: a fresh handle, a new open and empty channel. -/
def Service.insert (s : Service E) (sub : Subscriber E) :
    Except EventError Registration × Service E :=
  (.ok s.next,
    { s with
      registry := s.registry ++ [(s.next, sub)]
      channels := s.channels ++ [(s.next, { delivered := [], closes := 0 })]
      next := s.next + 1 })

/-- Modelled from the spec: `EventService.RegisterBlockEvent(filter ...BlockFilter)`: fails with
`ServiceClosed` on a closed service, with `PermissionDenied` when the caller is not authorized
(the check is an external collaborator, here its verdict), with `InvalidArgument` on a second
filter argument; otherwise inserts a block subscriber. -/
def RegisterBlockEvent (s : Service E) (authorized : Bool) (filter : List BlockFilter) :
    Except EventError Registration × Service E :=
  if s.conn = .Closed then (.error .ServiceClosed, s)
  else if !authorized then (.error .PermissionDenied, s)
  else
    match filter with
    | [] => s.insert (.block none)
    | [f] => s.insert (.block (some f))
    | _ :: _ :: _ => (.error .InvalidArgument, s)

/-- Modelled from the spec: `EventService.RegisterFilteredBlockEvent()`. -/
def RegisterFilteredBlockEvent (s : Service E) : Except EventError Registration × Service E :=
  if s.conn = .Closed then (.error .ServiceClosed, s)
  else s.insert .filteredBlock

/-- Modelled from the spec: `EventService.RegisterChaincodeEvent(ccID, eventFilter)`: the
pattern is compiled at registration time and an invalid pattern fails with `InvalidArgument`
before any registry mutation. -/
def RegisterChaincodeEvent (s : Service E) (ccID eventFilter : String) :
    Except EventError Registration × Service E :=
  if s.conn = .Closed then (.error .ServiceClosed, s)
  else
    match E.compile eventFilter with
    | none => (.error .InvalidArgument, s)
    | some pattern => s.insert (.chaincode ccID pattern)

/-- Modelled from the spec: `EventService.RegisterTxStatusEvent(txID)`: an empty `txID` fails
with `InvalidArgument`. -/
def RegisterTxStatusEvent (s : Service E) (txID : String) :
    Except EventError Registration × Service E :=
  if s.conn = .Closed then (.error .ServiceClosed, s)
  else if txID = "" then (.error .InvalidArgument, s)
  else s.insert (.txStatus txID)

/-- Modelled from the spec: `EventService.Unregister(reg)`: a no-op when the handle is unknown
or already removed; otherwise removes the record and closes its channel. -/
def Unregister (s : Service E) (reg : Registration) : Service E :=
  match lookupSub s.registry reg with
  | none => s
  | some _ =>
    { s with
      registry := s.registry.filter fun p => p.1 != reg
      channels := closeChan s.channels reg }

/-! ## Connection manager -/

/-- Modelled from the spec: `EventClient.Connect()`: `Disconnected → Connecting`; a closed
client cannot be reused. -/
def Connect (s : Service E) : Except EventError Unit × Service E :=
  match s.conn with
  | .Closed => (.error .ServiceClosed, s)
  | .Disconnected => (.ok (), { s with conn := .Connecting })
  | _ => (.ok (), s)

/-- Modelled from the spec: the stream is established: `Connecting → Connected`, emitting
`ConnectionEvent{connected: true}`. -/
def streamEstablished (s : Service E) : Service E :=
  match s.conn with
  | .Connecting =>
    { s with conn := .Connected, connEvents := s.connEvents ++ [⟨true, none⟩] }
  | _ => s

/-- Modelled from the spec: the dial deadline is exceeded: the manager is left in
`Disconnected` (and `Connect` fails with `ConnectionTimeout`). -/
def dialTimeout (s : Service E) : Except EventError Unit × Service E :=
  match s.conn with
  | .Connecting => (.error .ConnectionTimeout, { s with conn := .Disconnected })
  | _ => (.ok (), s)

/-- Modelled from the spec: stream error or EOF: `Connected → Disconnected`, emitting
`ConnectionEvent{connected: false, error}`. -/
def streamError (s : Service E) (err : String) : Service E :=
  match s.conn with
  | .Connected =>
    { s with conn := .Disconnected, connEvents := s.connEvents ++ [⟨false, some err⟩] }
  | _ => s

/-- Modelled from the spec: first half of `Close()`: enter `Closing`. -/
def beginClose (s : Service E) : Service E :=
  { s with conn := .Closing }

/-- Modelled from the spec: second half of `Close()`: close every remaining subscriber channel,
drop the records, enter `Closed`. -/
def finishClose (s : Service E) : Service E :=
  { s with
    conn := .Closed
    registry := []
    channels := List.foldl (fun acc p => closeChan acc p.1) s.channels s.registry }

/-- Modelled from the spec: `EventClient.Close()`: `Connected/Connecting/Disconnected → Closing
→ Closed`; `Closed` is terminal. -/
def Close (s : Service E) : Service E :=
  if s.conn = .Closed then s else finishClose (beginClose s)

/-- Modelled from the spec: `EventClient.CloseIfIdle()`: checks registry emptiness and, if
empty, performs the same transition as `Close()` and returns true; otherwise no state change
and false. -/
def CloseIfIdle (s : Service E) : Bool × Service E :=
  if s.registry.isEmpty then (true, Close s) else (false, s)

/-- Modelled from the spec: the receive loop feeds the dispatcher while connected. -/
def receive (s : Service E) (raw : RawEvent) : Service E :=
  if s.conn = .Connected then dispatch s raw else s

/-- Modelled from the spec: everything that can happen to an event client: the calls of the
public contract and the events of the upstream connection. -/
inductive Op (E : RegexpEngine) where
  | registerBlockEvent (authorized : Bool) (filter : List BlockFilter)
  | registerFilteredBlockEvent
  | registerChaincodeEvent (ccID eventFilter : String)
  | registerTxStatusEvent (txID : String)
  | unregister (reg : Registration)
  | connect
  | streamEstablished
  | dialTimeout
  | streamError (err : String)
  | close
  | closeIfIdle
  | receive (raw : RawEvent)

/-- Modelled from the spec: the state after one operation. -/
def step (s : Service E) : Op E → Service E
  | .registerBlockEvent authorized filter => (RegisterBlockEvent s authorized filter).2
  | .registerFilteredBlockEvent => (RegisterFilteredBlockEvent s).2
  | .registerChaincodeEvent ccID eventFilter => (RegisterChaincodeEvent s ccID eventFilter).2
  | .registerTxStatusEvent txID => (RegisterTxStatusEvent s txID).2
  | .unregister reg => Unregister s reg
  | .connect => (Connect s).2
  | .streamEstablished => streamEstablished s
  | .dialTimeout => (dialTimeout s).2
  | .streamError err => streamError s err
  | .close => Close s
  | .closeIfIdle => (CloseIfIdle s).2
  | .receive raw => receive s raw

/-- Modelled from the spec: the state after a sequence of operations. -/
def run (s : Service E) (ops : List (Op E)) : Service E :=
  ops.foldl step s

/-- Modelled from the spec: the result of a `Register*` operation (none for other operations). -/
def registerResult (s : Service E) : Op E → Option (Except EventError Registration)
  | .registerBlockEvent authorized filter => some (RegisterBlockEvent s authorized filter).1
  | .registerFilteredBlockEvent => some (RegisterFilteredBlockEvent s).1
  | .registerChaincodeEvent ccID eventFilter => some (RegisterChaincodeEvent s ccID eventFilter).1
  | .registerTxStatusEvent txID => some (RegisterTxStatusEvent s txID).1
  | _ => none

/-- Modelled from the spec: the handles of the registry. -/
def Service.handles (s : Service E) : List Registration :=
  s.registry.map Prod.fst

/-- Modelled from the spec: the data-model invariants: a handle maps to one record, handles are
never reused, each open registration has an open channel, the channel of a removed
registration has been closed exactly once, and a closed service holds no registration. -/
structure Service.WF (s : Service E) : Prop where
  regNodup : s.handles.Nodup
  regLt : ∀ r ∈ s.handles, r < s.next
  chLt : ∀ r c, lookupChan s.channels r = some c → r < s.next
  regOpen : ∀ r ∈ s.handles, ∃ c, lookupChan s.channels r = some c ∧ c.closes = 0
  unregClosed : ∀ r c, lookupChan s.channels r = some c → r ∉ s.handles → c.closes = 1
  closedEmpty : s.conn = .Closed → s.registry = []

/-- Modelled from the spec: a stream of raw blocks fed to the dispatcher, one pass per block. -/
def dispatchBlocks (s : Service E) (blocks : List Block) : Service E :=
  blocks.foldl (fun acc b => dispatch acc (.block b)) s

end Fab

/-! ## Go results and errors -/

/-- A Go `error` value: a package-level error variable, an error created at a call site
(`errors.New`, `fmt.Errorf`), or an error wrapped by `errors.WithMessage`. -/
inductive GoError where
  | sentinel (name : String) (msg : String)
  | new (msg : String)
  | withMessage (cause : GoError) (msg : String)
  deriving DecidableEq, Repr

/-- The outcome of calling a Go function with result type `(T, error)`: it returns a pair
(either component may be nil), or it panics. -/
inductive GoOutcome (α : Type) where
  | returned (val : Option α) (err : Option GoError)
  | panicked (msg : String)
  deriving DecidableEq, Repr

/-- Whether the call came back with an explicit error result. -/
def GoOutcome.isErrorResult {α : Type} : GoOutcome α → Bool
  | .returned _ (some _) => true
  | _ => false

/-- Whether the call aborted with a panic. -/
def GoOutcome.isPanic {α : Type} : GoOutcome α → Bool
  | .panicked _ => true
  | _ => false

namespace Mocks

/-- The part of `fab.ChannelCfg` the mock reads: the channel identifier. -/
structure ChannelCfg where
  ID : String
  deriving DecidableEq, Repr

/-- The `fab.ClientContext` argument (never inspected by the mock). -/
structure ClientContext where
  MspID : String
  deriving DecidableEq, Repr

/-- `MockChannelConfig` as built by `CreateChannelConfig`. -/
structure MockChannelConfig where
  channelID : String
  deriving DecidableEq, Repr

/-- `MockInfraProvider` represents the default implementation of Fabric objects; the custom
orderer and transactor are kept by name. -/
structure MockInfraProvider where
  customOrderer : Option String
  customTransactor : Option String
  deriving DecidableEq, Repr

/-- `MockInfraProvider.CreateEventService`: `panic("not implemented")`. -/
def MockInfraProvider.CreateEventService (_f : MockInfraProvider) (_ic : Option ClientContext)
    (_chConfig : Option ChannelCfg) : GoOutcome Unit :=
  .panicked "not implemented"

/-- `MockInfraProvider.CreateChannelConfig`: `return &MockChannelConfig{channelID}, nil`. -/
def MockInfraProvider.CreateChannelConfig (_f : MockInfraProvider) (channelID : String) :
    GoOutcome MockChannelConfig :=
  .returned (some ⟨channelID⟩) none

/-- `MockInfraProvider.CreateChannelMembership`: `return nil, fmt.Errorf("Not implemented")`. -/
def MockInfraProvider.CreateChannelMembership (_f : MockInfraProvider)
    (_cfg : Option ChannelCfg) : GoOutcome Unit :=
  .returned none (some (.new "Not implemented"))

end Mocks

namespace Fabsdk

/-- The `msp.Identity` behind a session (its declaration is outside the sources): the
identifying data of `msp.User`. -/
structure Identity where
  MspID : String
  Name : String
  EnrollmentCertificate : List Nat
  deriving DecidableEq, Repr

/-- `identityOptions`: `identity` (nil-able), `orgName`, `userName`. -/
structure identityOptions where
  identity : Option Identity
  orgName : String
  userName : String
  deriving DecidableEq, Repr

/-- `ContextOption`: `func(s *identityOptions) error`, the options after the call together with
the returned error. -/
abbrev ContextOption := identityOptions → identityOptions × Option GoError

/-- `WithUser` uses the named user to load the identity. -/
def WithUser (userName : String) : ContextOption :=
  fun o => ({ o with userName := userName }, none)

/-- `WithIdentity` uses a pre-constructed identity object as the credential for the session. -/
def WithIdentity (identity : Option Identity) : ContextOption :=
  fun o => ({ o with identity := identity }, none)

/-- `WithOrg` uses the named organization. -/
def WithOrg (org : String) : ContextOption :=
  fun o => ({ o with orgName := org }, none)

/-- `ErrAnonymousIdentity = errors.New("missing credentials")`, a package-level variable. -/
def ErrAnonymousIdentity : GoError :=
  .sentinel "fabsdk.ErrAnonymousIdentity" "missing credentials"

/-- The part of `core.ClientConfig` read by `newIdentity`. -/
structure ClientConfig where
  Organization : String
  deriving DecidableEq, Repr

/-- An `msp.IdentityManager`, through the one method `newIdentity` calls: `GetUser` returns a
user and an error. -/
structure IdentityManager where
  GetUser : String → Option Identity × Option GoError

/-- What `newIdentity` reads of a `FabricSDK`: the result of `sdk.Config().Client()` (an error,
or the configuration that `newIdentity` dereferences) and
`sdk.provider.IdentityManager(orgName)` (manager and `ok`). -/
structure FabricSDK where
  Client : Except GoError ClientConfig
  IdentityManager : String → Option IdentityManager

/-- A call made to the identity-management collaborators. -/
inductive ManagerCall where
  | IdentityManager (orgName : String)
  | GetUser (orgName userName : String)
  deriving DecidableEq, Repr

/-- The option loop of `newIdentity`: apply the options left to right, stopping at the first
one that returns an error. -/
def applyOptions : identityOptions → List ContextOption → Except GoError identityOptions
  | opts, [] => .ok opts
  | opts, option :: rest =>
    match option opts with
    | (_, some err) => .error err
    | (opts', none) => applyOptions opts' rest

/-- `FabricSDK.newIdentity`, with the calls it makes to the identity managers. -/
def FabricSDK.newIdentityTraced (sdk : FabricSDK) (options : List ContextOption) :
    (Option Identity × Option GoError) × List ManagerCall :=
  match sdk.Client with
  | .error err => ((none, some (.withMessage err "retrieving client configuration failed")), [])
  | .ok clientConfig =>
    match applyOptions { identity := none, orgName := clientConfig.Organization, userName := "" }
        options with
    | .error err =>
      ((none, some (.withMessage err "error in option passed to create identity")), [])
    | .ok opts =>
      if opts.identity = none ∧ opts.userName = "" then ((none, some ErrAnonymousIdentity), [])
      else
        match opts.identity with
        | some identity => ((some identity, none), [])
        | none =>
          if opts.userName = "" ∨ opts.orgName = "" then
            ((none, some (.new "invalid options to create identity")), [])
          else
            match sdk.IdentityManager opts.orgName with
            | none =>
              ((none, some (.new "invalid options to create identity, invalid org name")),
                [.IdentityManager opts.orgName])
            | some mgr =>
              match mgr.GetUser opts.userName with
              | (_, some err) =>
                ((none, some err), [.IdentityManager opts.orgName,
                  .GetUser opts.orgName opts.userName])
              | (user, none) =>
                ((user, none), [.IdentityManager opts.orgName,
                  .GetUser opts.orgName opts.userName])

/-- `FabricSDK.newIdentity`: the returned identity and error. -/
def FabricSDK.newIdentity (sdk : FabricSDK) (options : List ContextOption) :
    Option Identity × Option GoError :=
  (sdk.newIdentityTraced options).1

end Fabsdk

/-! ## Request context and providers (`pkg/context/context.go`) -/

/-- The outcome of calling a Go function without an error result: it returns a value, or it
panics. -/
inductive GoCall (α : Type) where
  | returned (val : α)
  | panicked (msg : String)

namespace Context

/-- The `core.TimeoutType` enum, an integer (`NewRequest` starts from `-1`). -/
abbrev TimeoutType := Int

/-- A `time.Duration`, a signed number of nanoseconds. -/
abbrev Duration := Int

/-- The part of `core.Config` read by `NewRequest`: `TimeoutOrDefault`. -/
structure Config where
  name : String
  TimeoutOrDefault : TimeoutType → Duration

/-- A `fab.CommManager`, kept by name. -/
structure CommManager where
  name : String
  deriving DecidableEq, Repr

/-- The part of `fab.InfraProvider` read by `NewRequest`: the (nil-able) result of
`CommManager()`. -/
structure InfraProvider where
  name : String
  CommManager : Option CommManager
  deriving DecidableEq, Repr

/-- A non-nil `context.Client`, through the two methods `NewRequest` calls: `Config()` and
`InfraProvider()`, either of which may return nil. -/
structure Client where
  name : String
  Config : Option Config
  InfraProvider : Option InfraProvider

/-- A key of a request context: a `reqContextKey` of this package, or a key of any other
type. -/
inductive Key where
  | reqContextKey (name : String)
  | foreign (name : String)
  deriving DecidableEq, Repr

/-- `reqContextCommManager = reqContextKey("commManager")`. -/
def reqContextCommManager : Key := .reqContextKey "commManager"

/-- `reqContextTimeout = reqContextKey("timeout")`. -/
def reqContextTimeout : Key := .reqContextKey "timeout"

/-- `reqContextClient = reqContextKey("clientContext")`. -/
def reqContextClient : Key := .reqContextKey "clientContext"

/-- A non-nil value stored in a request context: a client, a comm manager, or a value of any
other type. -/
inductive Value where
  | client (c : Client)
  | commManager (m : CommManager)
  | foreign (tag : String)

/-- Go's `context.Context` as far as `NewRequest` builds it: the background context, a context
with one more value (`context.WithValue`; the value may be nil), a context with a timeout
(`context.WithTimeout`). -/
inductive ReqContext where
  | background
  | withValue (parent : ReqContext) (key : Key) (val : Option Value)
  | withTimeout (parent : ReqContext) (timeout : Duration)

/-- Go's `ctx.Value(key)`: the value of the innermost `WithValue` for the key, nil when there is
none. -/
def ReqContext.Value : ReqContext → Key → Option Value
  | .background, _ => none
  | .withValue parent k val, key => if k = key then val else parent.Value key
  | .withTimeout parent _, key => parent.Value key

/-- The timeout a context was created with by its outermost `context.WithTimeout`. -/
def ReqContext.requestTimeout : ReqContext → Option Duration
  | .withTimeout _ timeout => some timeout
  | _ => none

/-- Whether a context holds no value under a key of type `reqContextKey`. -/
def ReqContext.foreignOnly : ReqContext → Bool
  | .background => true
  | .withValue parent (.foreign _) _ => parent.foreignOnly
  | .withValue _ (.reqContextKey _) _ => false
  | .withTimeout parent _ => parent.foreignOnly

/-- `requestContextOpts`: `timeoutType`, `timeout`, `parentContext` (nil-able). -/
structure requestContextOpts where
  timeoutType : TimeoutType
  timeout : Duration
  parentContext : Option ReqContext

/-- `ReqContextOptions`: `func(opts *requestContextOpts)`. -/
abbrev ReqContextOptions := requestContextOpts → requestContextOpts

/-- `WithTimeoutType` sets timeout by type defined in config to request context. -/
def WithTimeoutType (timeoutType : TimeoutType) : ReqContextOptions :=
  fun ctx => { ctx with timeoutType := timeoutType }

/-- `WithTimeout` sets timeout time duration to request context. -/
def WithTimeout (timeout : Duration) : ReqContextOptions :=
  fun ctx => { ctx with timeout := timeout }

/-- `WithReqContext` sets existing reqContext as a parent ReqContext. -/
def WithReqContext (context : Option ReqContext) : ReqContextOptions :=
  fun ctx => { ctx with parentContext := context }

/-- The option loop of `NewRequest`, from `requestContextOpts{timeoutType: -1}`. -/
def applyReqOptions (options : List ReqContextOptions) : requestContextOpts :=
  options.foldl (fun o option => option o) { timeoutType := -1, timeout := 0, parentContext := none }

/-- The panic of a method call on a nil interface value. -/
def nilDereference : String := "invalid memory address or nil pointer dereference"

/-- `NewRequest` creates a request-scoped context (the cancel function is left out).  The
client may be nil, and so may the results of `client.Config()` and `client.InfraProvider()`;
a method call on nil panics. -/
def NewRequest (client : Option Client) (options : List ReqContextOptions) :
    GoCall ReqContext :=
  let reqCtxOpts := applyReqOptions options
  match client with
  | none => .panicked nilDereference
  | some c =>
    let timeout : Option Duration :=
      if reqCtxOpts.timeout > 0 then some reqCtxOpts.timeout
      else c.Config.map fun config => config.TimeoutOrDefault reqCtxOpts.timeoutType
    match timeout with
    | none => .panicked nilDereference
    | some timeout =>
      let parentContext := reqCtxOpts.parentContext.getD .background
      match c.InfraProvider with
      | none => .panicked nilDereference
      | some infraProvider =>
        .returned (.withTimeout
          (.withValue
            (.withValue parentContext reqContextCommManager
              (infraProvider.CommManager.map .commManager))
            reqContextClient (some (.client c)))
          timeout)

/-- `RequestCommManager` extracts the CommManager from the request-scoped context. -/
def RequestCommManager (ctx : ReqContext) : Option CommManager × Bool :=
  match ctx.Value reqContextCommManager with
  | some (.commManager m) => (some m, true)
  | _ => (none, false)

/-- `RequestClientContext` extracts the Client Context from the request-scoped context. -/
def RequestClientContext (ctx : ReqContext) : Option Client × Bool :=
  match ctx.Value reqContextClient with
  | some (.client c) => (some c, true)
  | _ => (none, false)

/-- The three request-context options of the package, as data. -/
inductive ReqOption where
  | withTimeoutType (timeoutType : TimeoutType)
  | withTimeout (timeout : Duration)
  | withReqContext (context : Option ReqContext)

/-- The option function an option stands for. -/
def ReqOption.toOption : ReqOption → ReqContextOptions
  | .withTimeoutType timeoutType => WithTimeoutType timeoutType
  | .withTimeout timeout => WithTimeout timeout
  | .withReqContext context => WithReqContext context

/-- The duration of the `WithTimeout` option in effect: the last one of the list, zero (not
specified) when the list has none. -/
def timeoutInEffect (options : List ReqOption) : Duration :=
  (options.reverse.findSome? fun o =>
    match o with
    | .withTimeout timeout => some timeout
    | _ => none).getD 0

/-- The type of the `WithTimeoutType` option in effect: the last one of the list, `-1` when
the list has none. -/
def timeoutTypeInEffect (options : List ReqOption) : TimeoutType :=
  (options.reverse.findSome? fun o =>
    match o with
    | .withTimeoutType timeoutType => some timeoutType
    | _ => none).getD (-1)

/-- The parent context in effect: that of the last `WithReqContext` of the list (nil when the
list has none). -/
def parentInEffect (options : List ReqOption) : Option ReqContext :=
  (options.reverse.findSome? fun o =>
    match o with
    | .withReqContext context => some context
    | _ => none).getD none

/-! ### Provider -/

/-- An `msp.UserStore`, kept by name. -/
structure UserStore where
  name : String
  deriving DecidableEq, Repr

/-- A `core.CryptoSuite`, kept by name. -/
structure CryptoSuite where
  name : String
  deriving DecidableEq, Repr

/-- A `fab.DiscoveryProvider`, kept by name. -/
structure DiscoveryProvider where
  name : String
  deriving DecidableEq, Repr

/-- A `fab.SelectionProvider`, kept by name. -/
structure SelectionProvider where
  name : String
  deriving DecidableEq, Repr

/-- A `core.SigningManager`, kept by name. -/
structure SigningManager where
  name : String
  deriving DecidableEq, Repr

/-- An `msp.Provider`, kept by name. -/
structure MSPProvider where
  name : String
  deriving DecidableEq, Repr

/-- A `fab.ChannelProvider`, kept by name. -/
structure ChannelProvider where
  name : String
  deriving DecidableEq, Repr

/-- `Provider` implementation for Providers interface; every field is a nil-able interface
value. -/
structure Provider where
  config : Option Config
  userStore : Option UserStore
  cryptoSuite : Option CryptoSuite
  discoveryProvider : Option DiscoveryProvider
  selectionProvider : Option SelectionProvider
  signingManager : Option SigningManager
  mspProvider : Option MSPProvider
  infraProvider : Option InfraProvider
  channelProvider : Option ChannelProvider

/-- `Config` returns the Config provider of sdk. -/
def Provider.Config (c : Provider) : Option Config := c.config

/-- `CryptoSuite` returns the BCCSP provider of sdk. -/
def Provider.CryptoSuite (c : Provider) : Option CryptoSuite := c.cryptoSuite

/-- `SigningManager` returns signing manager. -/
def Provider.SigningManager (c : Provider) : Option SigningManager := c.signingManager

/-- `UserStore` returns state store. -/
def Provider.UserStore (c : Provider) : Option UserStore := c.userStore

/-- `DiscoveryProvider` returns discovery provider. -/
def Provider.DiscoveryProvider (c : Provider) : Option DiscoveryProvider := c.discoveryProvider

/-- `SelectionProvider` returns selection provider. -/
def Provider.SelectionProvider (c : Provider) : Option SelectionProvider := c.selectionProvider

/-- `ChannelProvider` provides channel services. -/
def Provider.ChannelProvider (c : Provider) : Option ChannelProvider := c.channelProvider

/-- `InfraProvider` provides fabric objects such as peer and user. -/
def Provider.InfraProvider (c : Provider) : Option InfraProvider := c.infraProvider

/-- `SDKContextParams`: `func(opts *Provider)`. -/
abbrev SDKContextParams := Provider → Provider

/-- `WithConfig` sets config to FabContext. -/
def WithConfig (config : Option Config) : SDKContextParams :=
  fun ctx => { ctx with config := config }

/-- `WithUserStore` sets user store to FabContext. -/
def WithUserStore (userStore : Option UserStore) : SDKContextParams :=
  fun ctx => { ctx with userStore := userStore }

/-- `WithCryptoSuite` sets cryptosuite parameter to FabContext. -/
def WithCryptoSuite (cryptoSuite : Option CryptoSuite) : SDKContextParams :=
  fun ctx => { ctx with cryptoSuite := cryptoSuite }

/-- `WithDiscoveryProvider` sets discoveryProvider to FabContext. -/
def WithDiscoveryProvider (discoveryProvider : Option DiscoveryProvider) : SDKContextParams :=
  fun ctx => { ctx with discoveryProvider := discoveryProvider }

/-- `WithSelectionProvider` sets selectionProvider to FabContext. -/
def WithSelectionProvider (selectionProvider : Option SelectionProvider) : SDKContextParams :=
  fun ctx => { ctx with selectionProvider := selectionProvider }

/-- `WithSigningManager` sets signingManager to FabContext. -/
def WithSigningManager (signingManager : Option SigningManager) : SDKContextParams :=
  fun ctx => { ctx with signingManager := signingManager }

/-- `WithMSPProvider` sets MSPProvider maps to context. -/
def WithMSPProvider (provider : Option MSPProvider) : SDKContextParams :=
  fun ctx => { ctx with mspProvider := provider }

/-- `WithInfraProvider` sets infraProvider maps to FabContext. -/
def WithInfraProvider (infraProvider : Option InfraProvider) : SDKContextParams :=
  fun ctx => { ctx with infraProvider := infraProvider }

/-- `WithChannelProvider` sets channelProvider to FabContext. -/
def WithChannelProvider (channelProvider : Option ChannelProvider) : SDKContextParams :=
  fun ctx => { ctx with channelProvider := channelProvider }

/-- The zero value `Provider{}`: every field nil. -/
def Provider.empty : Provider :=
  { config := none, userStore := none, cryptoSuite := none, discoveryProvider := none,
    selectionProvider := none, signingManager := none, mspProvider := none,
    infraProvider := none, channelProvider := none }

/-- `NewProvider` creates new context client provider: the parameters are applied in order to
`Provider{}`. -/
def NewProvider (params : List SDKContextParams) : Provider :=
  params.foldl (fun ctxProvider param => param ctxProvider) Provider.empty

/-- The nine `With*` parameters of the package, as data. -/
inductive Param where
  | withConfig (config : Option Config)
  | withUserStore (userStore : Option UserStore)
  | withCryptoSuite (cryptoSuite : Option CryptoSuite)
  | withDiscoveryProvider (discoveryProvider : Option DiscoveryProvider)
  | withSelectionProvider (selectionProvider : Option SelectionProvider)
  | withSigningManager (signingManager : Option SigningManager)
  | withMSPProvider (provider : Option MSPProvider)
  | withInfraProvider (infraProvider : Option InfraProvider)
  | withChannelProvider (channelProvider : Option ChannelProvider)

/-- The parameter function a parameter stands for. -/
def Param.toParam : Param → SDKContextParams
  | .withConfig config => WithConfig config
  | .withUserStore userStore => WithUserStore userStore
  | .withCryptoSuite cryptoSuite => WithCryptoSuite cryptoSuite
  | .withDiscoveryProvider discoveryProvider => WithDiscoveryProvider discoveryProvider
  | .withSelectionProvider selectionProvider => WithSelectionProvider selectionProvider
  | .withSigningManager signingManager => WithSigningManager signingManager
  | .withMSPProvider provider => WithMSPProvider provider
  | .withInfraProvider infraProvider => WithInfraProvider infraProvider
  | .withChannelProvider channelProvider => WithChannelProvider channelProvider

/-- The value given by the last parameter of a list that a selector recognises, nil when the
selector recognises none. -/
def lastGiven {α : Type} (select : Param → Option (Option α)) (params : List Param) :
    Option α :=
  (params.reverse.findSome? select).getD none

/-- The argument of a `WithConfig`. -/
def Param.config? : Param → Option (Option Config)
  | .withConfig config => some config
  | _ => none

/-- The argument of a `WithUserStore`. -/
def Param.userStore? : Param → Option (Option UserStore)
  | .withUserStore userStore => some userStore
  | _ => none

/-- The argument of a `WithCryptoSuite`. -/
def Param.cryptoSuite? : Param → Option (Option CryptoSuite)
  | .withCryptoSuite cryptoSuite => some cryptoSuite
  | _ => none

/-- The argument of a `WithDiscoveryProvider`. -/
def Param.discoveryProvider? : Param → Option (Option DiscoveryProvider)
  | .withDiscoveryProvider discoveryProvider => some discoveryProvider
  | _ => none

/-- The argument of a `WithSelectionProvider`. -/
def Param.selectionProvider? : Param → Option (Option SelectionProvider)
  | .withSelectionProvider selectionProvider => some selectionProvider
  | _ => none

/-- The argument of a `WithSigningManager`. -/
def Param.signingManager? : Param → Option (Option SigningManager)
  | .withSigningManager signingManager => some signingManager
  | _ => none

/-- The argument of a `WithMSPProvider`. -/
def Param.mspProvider? : Param → Option (Option MSPProvider)
  | .withMSPProvider provider => some provider
  | _ => none

/-- The argument of a `WithInfraProvider`. -/
def Param.infraProvider? : Param → Option (Option InfraProvider)
  | .withInfraProvider infraProvider => some infraProvider
  | _ => none

/-- The argument of a `WithChannelProvider`. -/
def Param.channelProvider? : Param → Option (Option ChannelProvider)
  | .withChannelProvider channelProvider => some channelProvider
  | _ => none

end Context

/-! ## Request options of the resource management client (`pkg/client/resmgmt/opts.go`) -/

namespace Resmgmt

/-- A `core.NetworkPeer` configuration entry. -/
structure NetworkPeer where
  URL : String
  MspID : String
  deriving DecidableEq, Repr

/-- A `core.OrdererConfig` configuration entry. -/
structure OrdererConfig where
  URL : String
  deriving DecidableEq, Repr

/-- A `fab.Peer`, kept by URL and MSP ID. -/
structure Peer where
  URL : String
  MspID : String
  deriving DecidableEq, Repr

/-- A `fab.Orderer`, kept by URL. -/
structure Orderer where
  URL : String
  deriving DecidableEq, Repr

/-- A `TargetFilter`, kept by name. -/
structure TargetFilter where
  name : String
  deriving DecidableEq, Repr

/-- What the options read of a `context.Client`: the peer-configuration lookup
`config.NetworkPeerConfigFromURL(ctx.Config(), url)`, `ctx.Config().OrdererConfig(url)`, and
`CreatePeerFromConfig` / `CreateOrdererFromConfig` of `ctx.InfraProvider()`; each returns a
(nil-able) value and a (nil-able) error. -/
structure Client where
  NetworkPeerConfigFromURL : String → Option NetworkPeer × Option GoError
  OrdererConfig : String → Option OrdererConfig × Option GoError
  CreatePeerFromConfig : Option NetworkPeer → Option Peer × Option GoError
  CreateOrdererFromConfig : Option Resmgmt.OrdererConfig → Option Orderer × Option GoError

/-- `requestOptions`: the targets (a slice of nil-able peers), the target filter, the orderer
and the timeout of a request. -/
structure requestOptions where
  Targets : List (Option Peer)
  TargetFilter : Option TargetFilter
  Orderer : Option Orderer
  Timeout : Int
  deriving DecidableEq, Repr

/-- `RequestOption`: `func(ctx context.Client, opts *requestOptions) error`, the options after
the call together with the returned error. -/
abbrev RequestOption := Client → requestOptions → requestOptions × Option GoError

/-- `WithTargets` allows overriding of the target peers for the request. -/
def WithTargets (targets : List (Option Peer)) : RequestOption :=
  fun _ctx opts => ({ opts with Targets := targets }, none)

/-- The loop of `WithTargetURLs`: for each URL look the peer configuration up, create the peer
and append it to the targets; the first failure ends the loop with its error. -/
def targetsFromURLs (ctx : Client) :
    List String → List (Option Peer) → Except GoError (List (Option Peer))
  | [], targets => .ok targets
  | url :: urls, targets =>
    match ctx.NetworkPeerConfigFromURL url with
    | (_, some err) => .error err
    | (peerCfg, none) =>
      match ctx.CreatePeerFromConfig peerCfg with
      | (_, some err) => .error (.withMessage err "creating peer from config failed")
      | (peer, none) => targetsFromURLs ctx urls (targets ++ [peer])

/-- `WithTargetURLs` allows overriding of the target peers for the request; targets are
specified by URL. -/
def WithTargetURLs (urls : List String) : RequestOption :=
  fun ctx opts =>
    match targetsFromURLs ctx urls [] with
    | .error err => (opts, some err)
    | .ok targets => WithTargets targets ctx opts

/-- `WithTargetFilter` enables a target filter for the request. -/
def WithTargetFilter (targetFilter : Option TargetFilter) : RequestOption :=
  fun _ctx opts => ({ opts with TargetFilter := targetFilter }, none)

/-- `WithTimeout` specifies the timeout for the request. -/
def WithTimeout (timeout : Int) : RequestOption :=
  fun _ctx opts => ({ opts with Timeout := timeout }, none)

/-- `WithOrderer` allows an orderer to be specified for the request. -/
def WithOrderer (orderer : Option Orderer) : RequestOption :=
  fun _ctx opts => ({ opts with Orderer := orderer }, none)

/-- `WithOrdererURL` allows an orderer to be specified for the request; the orderer is looked
up based on the url argument. -/
def WithOrdererURL (url : String) : RequestOption :=
  fun ctx opts =>
    match ctx.OrdererConfig url with
    | (_, some err) => (opts, some (.withMessage err "orderer not found"))
    | (none, none) => (opts, some (.new "orderer not found"))
    | (some ordererCfg, none) =>
      match ctx.CreateOrdererFromConfig (some ordererCfg) with
      | (_, some err) => (opts, some (.withMessage err "creating orderer from config failed"))
      | (orderer, none) => WithOrderer orderer ctx opts

/-- The peer `WithTargetURLs` creates for one URL when lookup and creation succeed. -/
def peerFromURL (ctx : Client) (url : String) : Option Peer :=
  (ctx.CreatePeerFromConfig (ctx.NetworkPeerConfigFromURL url).1).1

/-- Whether the peer-configuration lookup and the peer creation both succeed for a URL. -/
def resolves (ctx : Client) (url : String) : Prop :=
  (ctx.NetworkPeerConfigFromURL url).2 = none ∧
    (ctx.CreatePeerFromConfig (ctx.NetworkPeerConfigFromURL url).1).2 = none

end Resmgmt

namespace Fabsdk

/-- The three identity options of the package, as data. -/
inductive IdentityOption where
  | withUser (userName : String)
  | withIdentity (identity : Option Identity)
  | withOrg (org : String)
  deriving DecidableEq, Repr

/-- The option function an option stands for. -/
def IdentityOption.toOption : IdentityOption → ContextOption
  | .withUser userName => WithUser userName
  | .withIdentity identity => WithIdentity identity
  | .withOrg org => WithOrg org

/-- The organization in effect: that of the last `WithOrg` of the list, the given default (the
client configuration's organization) when the list has none. -/
def orgInEffect (default : String) (options : List IdentityOption) : String :=
  (options.reverse.findSome? fun o =>
    match o with
    | .withOrg org => some org
    | _ => none).getD default

/-- The user name in effect: that of the last `WithUser` of the list, empty when the list has
none. -/
def userInEffect (options : List IdentityOption) : String :=
  (options.reverse.findSome? fun o =>
    match o with
    | .withUser userName => some userName
    | _ => none).getD ""

/-- The identity in effect: that of the last `WithIdentity` of the list, nil when the list has
none. -/
def identityInEffect (options : List IdentityOption) : Option Identity :=
  (options.reverse.findSome? fun o =>
    match o with
    | .withIdentity identity => some identity
    | _ => none).getD none

end Fabsdk

/-! ## Fixtures -/

namespace Fab

/-- A block filter that lets every block pass. -/
def passAll : BlockFilter := fun _ => true

/-- A block filter that lets no block pass. -/
def passNone : BlockFilter := fun _ => false

/-- A block with one transaction that carries four chaincode events. -/
def sampleBlock : Block :=
  { Number := 7
    Transactions :=
      [{ TxID := "abc123", ValidationCode := 0,
         Events := [⟨"cc1", "evt1"⟩, ⟨"cc2", "evt1"⟩, ⟨"cc1", "other"⟩, ⟨"cc1", "evtX"⟩] }] }

/-- A service (with the fragment engine) holding two filtered-block registrations. -/
def twoFilteredSubscribers : List (Op miniRegexp) :=
  [.connect, .streamEstablished, .registerFilteredBlockEvent, .registerFilteredBlockEvent]

end Fab

namespace Fabsdk

/-- An SDK whose client configuration names organization `org1` and that has no identity
manager at all. -/
def sdkNoManagers : FabricSDK :=
  { Client := .ok ⟨"org1"⟩, IdentityManager := fun _ => none }

/-- An SDK whose identity managers answer every `GetUser` with `ErrAnonymousIdentity`. -/
def sdkAnonymousManager : FabricSDK :=
  { Client := .ok ⟨"org1"⟩
    IdentityManager := fun _ => some ⟨fun _ => (none, some ErrAnonymousIdentity)⟩ }

/-- A pre-constructed identity. -/
def alice : Identity :=
  { MspID := "Org1MSP", Name := "alice", EnrollmentCertificate := [1, 2, 3] }

end Fabsdk

namespace Context

/-- A configuration whose default timeout is 30 for every type but type 2, where it is 7. -/
def sampleConfig : Config :=
  { name := "config", TimeoutOrDefault := fun t => if t = 2 then 7 else 30 }

/-- A client with an infrastructure provider (whose comm manager is nil) and no
configuration. -/
def clientNoConfig : Client :=
  { name := "c1", Config := none, InfraProvider := some ⟨"infra", none⟩ }

/-- A client with configuration and infrastructure provider. -/
def clientFull : Client :=
  { name := "c2", Config := some sampleConfig, InfraProvider := some ⟨"infra", some ⟨"comm"⟩⟩ }

end Context

namespace Resmgmt

/-- A client context that knows two peers and one orderer by URL. -/
def sampleClient : Client :=
  { NetworkPeerConfigFromURL := fun url =>
      if url = "peer0:7051" then (some ⟨url, "Org1MSP"⟩, none)
      else if url = "peer1:7051" then (some ⟨url, "Org2MSP"⟩, none)
      else (none, some (.new "peer not found"))
    OrdererConfig := fun url =>
      if url = "orderer:7050" then (some ⟨url⟩, none) else (none, none)
    CreatePeerFromConfig := fun cfg =>
      match cfg with
      | some c => (some ⟨c.URL, c.MspID⟩, none)
      | none => (some ⟨"", ""⟩, none)
    CreateOrdererFromConfig := fun cfg =>
      match cfg with
      | some c => (some ⟨c.URL⟩, none)
      | none => (none, some (.new "no orderer configuration")) }

/-- Request options with nothing set. -/
def noOptions : requestOptions :=
  { Targets := [], TargetFilter := none, Orderer := none, Timeout := 0 }

end Resmgmt

namespace Fabsdk

/-- An SDK whose client configuration names organization `org1`, with an identity manager for
`org2` only, which knows `alice` and nobody else. -/
def sdkOrg2 : FabricSDK :=
  { Client := .ok ⟨"org1"⟩
    IdentityManager := fun org =>
      if org = "org2" then
        some ⟨fun userName =>
          if userName = "alice" then (some ⟨"Org2MSP", "alice", [4, 5]⟩, none)
          else (none, some (.sentinel "msp.ErrUserNotFound" "user not found"))⟩
      else none }

end Fabsdk

/-! ## Lemmas: registry and channel tables -/

namespace Fab

variable {E : RegexpEngine}

theorem lookupChan_cons (p : Registration × Channel) (chs : List (Registration × Channel))
    (r : Registration) :
    lookupChan (p :: chs) r = if p.1 = r then some p.2 else lookupChan chs r := by
  unfold lookupChan
  by_cases h : p.1 = r
  · simp [List.find?_cons, h]
  · simp [List.find?_cons, h]

theorem lookupSub_cons (p : Registration × Subscriber E)
    (reg : List (Registration × Subscriber E)) (r : Registration) :
    lookupSub (p :: reg) r = if p.1 = r then some p.2 else lookupSub reg r := by
  unfold lookupSub
  by_cases h : p.1 = r
  · simp [List.find?_cons, h]
  · simp [List.find?_cons, h]

theorem lookupSub_eq_none_iff (reg : List (Registration × Subscriber E)) (r : Registration) :
    lookupSub reg r = none ↔ r ∉ reg.map Prod.fst := by
  induction reg with
  | nil => simp [lookupSub]
  | cons p reg ih =>
    rw [lookupSub_cons]
    by_cases h : p.1 = r
    · simp [h]
    · simp only [h, if_false, ih, List.map_cons, List.mem_cons]
      constructor
      · intro hn hor
        rcases hor with hor | hor
        · exact h hor.symm
        · exact hn hor
      · intro hn hmem
        exact hn (Or.inr hmem)

theorem lookupSub_isSome_of_mem (reg : List (Registration × Subscriber E)) (r : Registration)
    (h : r ∈ reg.map Prod.fst) : ∃ sub, lookupSub reg r = some sub := by
  cases hl : lookupSub reg r with
  | none => exact absurd h ((lookupSub_eq_none_iff reg r).mp hl)
  | some sub => exact ⟨sub, rfl⟩

theorem mem_handles_of_lookupSub (reg : List (Registration × Subscriber E)) (r : Registration)
    (sub : Subscriber E) (h : lookupSub reg r = some sub) : r ∈ reg.map Prod.fst := by
  by_contra hn
  rw [(lookupSub_eq_none_iff reg r).mpr hn] at h
  cases h

theorem lookupSub_of_mem (reg : List (Registration × Subscriber E)) (r : Registration)
    (sub : Subscriber E) (hnd : (reg.map Prod.fst).Nodup) (h : (r, sub) ∈ reg) :
    lookupSub reg r = some sub := by
  induction reg with
  | nil => cases h
  | cons p reg ih =>
    rw [lookupSub_cons]
    simp only [List.map_cons, List.nodup_cons] at hnd
    rcases List.mem_cons.mp h with h | h
    · subst h
      simp
    · have hr : r ∈ reg.map Prod.fst := List.mem_map.mpr ⟨(r, sub), h, rfl⟩
      have hne : p.1 ≠ r := by
        intro he
        exact hnd.1 (he ▸ hr)
      simp only [hne, if_false]
      exact ih hnd.2 h

theorem lookupChan_update (g : Channel → Channel) (chs : List (Registration × Channel))
    (r r' : Registration) :
    lookupChan (chs.map fun p => if p.1 = r then (p.1, g p.2) else p) r' =
      if r' = r then (lookupChan chs r').map g else lookupChan chs r' := by
  induction chs with
  | nil => simp [lookupChan]
  | cons p chs ih =>
    rw [List.map_cons, lookupChan_cons, lookupChan_cons, ih]
    by_cases h1 : p.1 = r
    · by_cases h2 : p.1 = r'
      · have h3 : r' = r := h2 ▸ h1
        simp [h1, h3]
      · have h3 : ¬ r = r' := fun e => h2 (h1.trans e)
        have h4 : ¬ r' = r := fun e => h3 e.symm
        simp [h1, h3, h4]
    · by_cases h2 : p.1 = r'
      · have h3 : r' ≠ r := h2 ▸ h1
        simp [h1, h2, h3]
      · simp [h1, h2]

theorem lookupChan_send (chs : List (Registration × Channel)) (r r' : Registration)
    (ev : Event) :
    lookupChan (send chs r ev) r' =
      if r' = r then (lookupChan chs r').map (fun c => c.push ev) else lookupChan chs r' :=
  lookupChan_update (fun c => c.push ev) chs r r'

theorem lookupChan_closeChan (chs : List (Registration × Channel)) (r r' : Registration) :
    lookupChan (closeChan chs r) r' =
      if r' = r then (lookupChan chs r').map Channel.close else lookupChan chs r' :=
  lookupChan_update Channel.close chs r r'

theorem lookupChan_append_single (chs : List (Registration × Channel)) (n r : Registration)
    (c : Channel) :
    lookupChan (chs ++ [(n, c)]) r =
      match lookupChan chs r with
      | some c' => some c'
      | none => if n = r then some c else none := by
  induction chs with
  | nil => simp [lookupChan_cons, lookupChan]
  | cons p chs ih =>
    rw [List.cons_append, lookupChan_cons, lookupChan_cons, ih]
    by_cases h : p.1 = r
    · simp [h]
    · simp [h]

/-- Closing the channels of a list of records: a listed handle (listed once) is closed once,
every other channel is untouched. -/
theorem lookupChan_closeAll (reg : List (Registration × Subscriber E))
    (chs : List (Registration × Channel)) (r : Registration)
    (hnd : (reg.map Prod.fst).Nodup) :
    lookupChan (List.foldl (fun acc p => closeChan acc p.1) chs reg) r =
      if r ∈ reg.map Prod.fst then (lookupChan chs r).map Channel.close
      else lookupChan chs r := by
  induction reg generalizing chs with
  | nil => simp
  | cons p reg ih =>
    simp only [List.map_cons, List.nodup_cons] at hnd
    rw [List.foldl_cons, ih _ hnd.2, lookupChan_closeChan]
    by_cases h : r = p.1
    · subst h
      simp [hnd.1]
    · by_cases hm : r ∈ reg.map Prod.fst
      · have hm' : r ∈ List.map Prod.fst (p :: reg) := List.mem_cons_of_mem _ hm
        rw [if_pos hm, if_pos hm', if_neg h]
      · have hm' : r ∉ List.map Prod.fst (p :: reg) := by
          intro hc
          rcases List.mem_cons.mp hc with hc | hc
          · exact h hc
          · exact hm hc
        rw [if_neg hm, if_neg hm', if_neg h]

/-- One delivery step: the channel of a registered handle (registered once) gets the event
exactly when its record accepts it; the channel of any other handle is untouched. -/
theorem lookupChan_deliver (snapshot : List (Registration × Subscriber E)) (ev : Event)
    (chs : List (Registration × Channel)) (r : Registration)
    (hnd : (snapshot.map Prod.fst).Nodup) :
    lookupChan (deliver snapshot ev chs) r =
      match lookupSub snapshot r with
      | some sub =>
        if sub.accepts ev then (lookupChan chs r).map (fun c => c.push ev) else lookupChan chs r
      | none => lookupChan chs r := by
  unfold deliver
  induction snapshot generalizing chs with
  | nil => simp [lookupSub]
  | cons p snapshot ih =>
    simp only [List.map_cons, List.nodup_cons] at hnd
    rw [List.foldl_cons, ih _ hnd.2, lookupSub_cons]
    by_cases h : p.1 = r
    · subst h
      rw [(lookupSub_eq_none_iff snapshot p.1).mpr hnd.1]
      by_cases ha : p.2.accepts ev
      · simp [ha, lookupChan_send]
      · simp [ha]
    · have h' : r ≠ p.1 := fun e => h e.symm
      simp only [h, if_false]
      by_cases ha : p.2.accepts ev
      · simp [ha, lookupChan_send, h']
      · simp [ha]

theorem lookupChan_deliverAll (reg : List (Registration × Subscriber E)) (evs : List Event)
    (chs : List (Registration × Channel)) (r : Registration)
    (hnd : (reg.map Prod.fst).Nodup) :
    lookupChan (List.foldl (fun acc ev => deliver reg ev acc) chs evs) r =
      match lookupSub reg r with
      | some sub => (lookupChan chs r).map fun c => c.pushAll (evs.filter sub.accepts)
      | none => lookupChan chs r := by
  induction evs generalizing chs with
  | nil =>
    simp only [List.foldl_nil, List.filter_nil]
    cases lookupSub reg r with
    | none => rfl
    | some sub =>
      cases lookupChan chs r with
      | none => rfl
      | some c => simp [Channel.pushAll]
  | cons ev evs ih =>
    rw [List.foldl_cons, ih, lookupChan_deliver _ _ _ _ hnd]
    cases lookupSub reg r with
    | none => rfl
    | some sub =>
      by_cases ha : sub.accepts ev
      · cases lookupChan chs r with
        | none => simp [ha]
        | some c => simp [ha, Channel.pushAll, Channel.push, List.filter_cons]
      · cases lookupChan chs r with
        | none => simp [ha]
        | some c => simp [ha, List.filter_cons]

/-- One dispatch pass, channel by channel: a registered channel is extended by the derived
events its record accepts, in derivation order; every other channel is untouched. -/
theorem lookupChan_dispatch (s : Service E) (raw : RawEvent) (r : Registration)
    (hnd : s.handles.Nodup) :
    lookupChan (dispatch s raw).channels r =
      match lookupSub s.registry r with
      | some sub =>
        (lookupChan s.channels r).map fun c => c.pushAll ((deriveEvents raw).filter sub.accepts)
      | none => lookupChan s.channels r :=
  lookupChan_deliverAll s.registry (deriveEvents raw) s.channels r hnd

theorem closes_dispatch (s : Service E) (raw : RawEvent) (r : Registration)
    (hnd : s.handles.Nodup) :
    (lookupChan (dispatch s raw).channels r).map Channel.closes =
      (lookupChan s.channels r).map Channel.closes := by
  rw [lookupChan_dispatch s raw r hnd]
  cases lookupSub s.registry r with
  | none => rfl
  | some sub =>
    cases lookupChan s.channels r with
    | none => rfl
    | some c => rfl

/-! ## Lemmas: the invariants hold in every reachable state -/

theorem WF_init : (Service.init : Service E).WF where
  regNodup := List.nodup_nil
  regLt := by intro r h; cases h
  chLt := by intro r c h; cases h
  regOpen := by intro r h; cases h
  unregClosed := by intro r c h; cases h
  closedEmpty := fun _ => rfl

/-- The invariants only read the close counts of the channels. -/
theorem WF_of_same_closes (s s' : Service E) (hreg : s'.registry = s.registry)
    (hnext : s'.next = s.next) (hconn : s'.conn = .Closed → s.conn = .Closed)
    (hch : ∀ r, (lookupChan s'.channels r).map Channel.closes =
      (lookupChan s.channels r).map Channel.closes)
    (h : s.WF) : s'.WF := by
  have hh : s'.handles = s.handles := by simp [Service.handles, hreg]
  have key : ∀ r c', lookupChan s'.channels r = some c' →
      ∃ c, lookupChan s.channels r = some c ∧ c.closes = c'.closes := by
    intro r c' hc'
    have := hch r
    rw [hc'] at this
    cases hc : lookupChan s.channels r with
    | none => rw [hc] at this; cases this
    | some c =>
      rw [hc] at this
      simp only [Option.map_some'] at this
      exact ⟨c, rfl, (Option.some.inj this).symm⟩
  constructor
  · rw [hh]; exact h.regNodup
  · intro r hr; rw [hh] at hr; rw [hnext]; exact h.regLt r hr
  · intro r c' hc'
    obtain ⟨c, hc, _⟩ := key r c' hc'
    rw [hnext]; exact h.chLt r c hc
  · intro r hr
    rw [hh] at hr
    obtain ⟨c, hc, h0⟩ := h.regOpen r hr
    have := hch r
    rw [hc] at this
    cases hc' : lookupChan s'.channels r with
    | none => rw [hc'] at this; cases this
    | some c' =>
      rw [hc'] at this
      simp only [Option.map_some'] at this
      exact ⟨c', rfl, (Option.some.inj this).trans h0⟩
  · intro r c' hc' hr
    rw [hh] at hr
    obtain ⟨c, hc, he⟩ := key r c' hc'
    rw [← he]; exact h.unregClosed r c hc hr
  · intro hcl
    rw [hreg]; exact h.closedEmpty (hconn hcl)

theorem WF_dispatch (s : Service E) (raw : RawEvent) (h : s.WF) : (dispatch s raw).WF :=
  WF_of_same_closes s (dispatch s raw) rfl rfl (fun hc => hc)
    (fun r => closes_dispatch s raw r h.regNodup) h

theorem lookupChan_insert (s : Service E) (sub : Subscriber E) (r : Registration) :
    lookupChan (s.insert sub).2.channels r =
      match lookupChan s.channels r with
      | some c => some c
      | none => if s.next = r then some { delivered := [], closes := 0 } else none :=
  lookupChan_append_single s.channels s.next r _

theorem handles_insert (s : Service E) (sub : Subscriber E) :
    (s.insert sub).2.handles = s.handles ++ [s.next] := by
  simp [Service.insert, Service.handles]

theorem WF_insert (s : Service E) (sub : Subscriber E) (hopen : s.conn ≠ .Closed)
    (h : s.WF) : (s.insert sub).2.WF := by
  have hfresh : s.next ∉ s.handles := fun hm => Nat.lt_irrefl _ (h.regLt _ hm)
  have hnone : lookupChan s.channels s.next = none := by
    cases hc : lookupChan s.channels s.next with
    | none => rfl
    | some c => exact absurd (h.chLt _ c hc) (Nat.lt_irrefl _)
  constructor
  · rw [handles_insert]
    exact List.Nodup.append h.regNodup (List.nodup_singleton _)
      (by
        intro a ha hb
        rw [List.mem_singleton] at hb
        exact hfresh (hb ▸ ha))
  · intro r hr
    rw [handles_insert, List.mem_append, List.mem_singleton] at hr
    show r < s.next + 1
    rcases hr with hr | hr
    · exact Nat.lt_succ_of_lt (h.regLt r hr)
    · rw [hr]; exact Nat.lt_succ_self _
  · intro r c hc
    rw [lookupChan_insert] at hc
    show r < s.next + 1
    cases hl : lookupChan s.channels r with
    | some c' => exact Nat.lt_succ_of_lt (h.chLt r c' hl)
    | none =>
      rw [hl] at hc
      by_cases hn : s.next = r
      · rw [← hn]; exact Nat.lt_succ_self _
      · simp [hn] at hc
  · intro r hr
    rw [handles_insert, List.mem_append, List.mem_singleton] at hr
    rw [lookupChan_insert]
    rcases hr with hr | hr
    · obtain ⟨c, hc, h0⟩ := h.regOpen r hr
      exact ⟨c, by rw [hc], h0⟩
    · subst hr
      exact ⟨{ delivered := [], closes := 0 }, by rw [hnone]; simp, rfl⟩
  · intro r c hc hr
    rw [handles_insert, List.mem_append, List.mem_singleton, not_or] at hr
    rw [lookupChan_insert] at hc
    cases hl : lookupChan s.channels r with
    | some c' =>
      rw [hl] at hc
      have : c' = c := Option.some.inj hc
      exact this ▸ h.unregClosed r c' hl hr.1
    | none =>
      rw [hl] at hc
      have hn : ¬ s.next = r := fun e => hr.2 e.symm
      simp [hn] at hc
  · intro hc
    exact absurd hc hopen

theorem handles_filter (reg : List (Registration × Subscriber E)) (r0 r : Registration) :
    r ∈ (reg.filter fun p => p.1 != r0).map Prod.fst ↔ r ∈ reg.map Prod.fst ∧ r ≠ r0 := by
  simp only [List.mem_map, List.mem_filter]
  constructor
  · rintro ⟨p, ⟨hp, hne⟩, rfl⟩
    exact ⟨⟨p, hp, rfl⟩, by simpa using hne⟩
  · rintro ⟨⟨p, hp, rfl⟩, hne⟩
    exact ⟨p, ⟨hp, by simpa using hne⟩, rfl⟩

theorem nodup_handles_filter (reg : List (Registration × Subscriber E)) (r0 : Registration)
    (h : (reg.map Prod.fst).Nodup) : ((reg.filter fun p => p.1 != r0).map Prod.fst).Nodup := by
  induction reg with
  | nil => simp
  | cons p reg ih =>
    simp only [List.map_cons, List.nodup_cons] at h
    by_cases hp : p.1 = r0
    · simpa [List.filter_cons, hp] using ih h.2
    · simp only [List.filter_cons, bne_iff_ne, ne_eq, hp, not_false_eq_true, decide_True,
        if_true, List.map_cons, List.nodup_cons]
      refine ⟨?_, ih h.2⟩
      intro hm
      exact h.1 ((handles_filter reg r0 p.1).mp hm).1

theorem unregister_of_registered (s : Service E) (r : Registration) (hr : r ∈ s.handles) :
    Unregister s r =
      { s with
        registry := s.registry.filter fun p => p.1 != r
        channels := closeChan s.channels r } := by
  obtain ⟨sub, hsub⟩ := lookupSub_isSome_of_mem s.registry r hr
  simp [Unregister, hsub]

theorem unregister_of_unknown (s : Service E) (r : Registration) (hr : r ∉ s.handles) :
    Unregister s r = s := by
  simp [Unregister, (lookupSub_eq_none_iff s.registry r).mpr hr]

theorem WF_unregister (s : Service E) (r0 : Registration) (h : s.WF) : (Unregister s r0).WF := by
  by_cases hr0 : r0 ∈ s.handles
  · rw [unregister_of_registered s r0 hr0]
    constructor
    · exact nodup_handles_filter s.registry r0 h.regNodup
    · intro r hr
      exact h.regLt r ((handles_filter s.registry r0 r).mp hr).1
    · intro r c hc
      simp only [lookupChan_closeChan] at hc
      cases hl : lookupChan s.channels r with
      | some c' => exact h.chLt r c' hl
      | none => rw [hl] at hc; simp at hc
    · intro r hr
      have hr' := (handles_filter s.registry r0 r).mp hr
      obtain ⟨c, hc, h0⟩ := h.regOpen r hr'.1
      refine ⟨c, ?_, h0⟩
      simp only [lookupChan_closeChan, hr'.2, if_false]
      exact hc
    · intro r c hc hr
      simp only [lookupChan_closeChan] at hc
      by_cases he : r = r0
      · subst he
        obtain ⟨c0, hc0, h0⟩ := h.regOpen r hr0
        rw [hc0] at hc
        simp only [if_true, Option.map_some'] at hc
        rw [← Option.some.inj hc]
        simp [Channel.close, h0]
      · simp only [he, if_false] at hc
        apply h.unregClosed r c hc
        intro hm
        exact hr ((handles_filter s.registry r0 r).mpr ⟨hm, he⟩)
    · intro hcl
      have : s.registry = [] := h.closedEmpty hcl
      simp [this]
  · rw [unregister_of_unknown s r0 hr0]
    exact h

theorem lookupChan_finishClose (s : Service E) (r : Registration) (hnd : s.handles.Nodup) :
    lookupChan (finishClose (beginClose s)).channels r =
      if r ∈ s.handles then (lookupChan s.channels r).map Channel.close
      else lookupChan s.channels r :=
  lookupChan_closeAll s.registry s.channels r hnd

theorem WF_close (s : Service E) (h : s.WF) : (Close s).WF := by
  unfold Close
  by_cases hc : s.conn = .Closed
  · rw [if_pos hc]; exact h
  · rw [if_neg hc]
    constructor
    · exact List.nodup_nil
    · intro r hr; cases hr
    · intro r c hcr
      rw [lookupChan_finishClose s r h.regNodup] at hcr
      show r < s.next
      cases hl : lookupChan s.channels r with
      | some c' => exact h.chLt r c' hl
      | none => rw [hl] at hcr; simp at hcr
    · intro r hr; cases hr
    · intro r c hcr _
      rw [lookupChan_finishClose s r h.regNodup] at hcr
      by_cases hm : r ∈ s.handles
      · obtain ⟨c0, hc0, h0⟩ := h.regOpen r hm
        rw [if_pos hm, hc0] at hcr
        rw [← Option.some.inj hcr]
        simp [Channel.close, h0]
      · rw [if_neg hm] at hcr
        exact h.unregClosed r c hcr hm
    · intro _; rfl

theorem WF_step (s : Service E) (op : Op E) (h : s.WF) : (step s op).WF := by
  cases op with
  | registerBlockEvent authorized filter =>
    simp only [step, RegisterBlockEvent]
    by_cases hc : s.conn = .Closed
    · simpa [hc] using h
    · cases authorized with
      | false => simpa [hc] using h
      | true =>
        match filter with
        | [] => simpa [hc] using WF_insert s _ hc h
        | [f] => simpa [hc] using WF_insert s _ hc h
        | _ :: _ :: _ => simpa [hc] using h
  | registerFilteredBlockEvent =>
    simp only [step, RegisterFilteredBlockEvent]
    by_cases hc : s.conn = .Closed
    · simpa [hc] using h
    · simpa [hc] using WF_insert s _ hc h
  | registerChaincodeEvent ccID eventFilter =>
    simp only [step, RegisterChaincodeEvent]
    by_cases hc : s.conn = .Closed
    · simpa [hc] using h
    · cases hp : E.compile eventFilter with
      | none => simpa [hc, hp] using h
      | some pattern => simpa [hc, hp] using WF_insert s _ hc h
  | registerTxStatusEvent txID =>
    simp only [step, RegisterTxStatusEvent]
    by_cases hc : s.conn = .Closed
    · simpa [hc] using h
    · by_cases ht : txID = ""
      · simpa [hc, ht] using h
      · simpa [hc, ht] using WF_insert s _ hc h
  | unregister reg => exact WF_unregister s reg h
  | connect =>
    refine WF_of_same_closes s _ ?_ ?_ ?_ ?_ h <;>
      (simp only [step, Connect]; cases hc : s.conn <;> simp [hc])
  | streamEstablished =>
    refine WF_of_same_closes s _ ?_ ?_ ?_ ?_ h <;>
      (simp only [step, streamEstablished]; cases hc : s.conn <;> simp [hc])
  | dialTimeout =>
    refine WF_of_same_closes s _ ?_ ?_ ?_ ?_ h <;>
      (simp only [step, dialTimeout]; cases hc : s.conn <;> simp [hc])
  | streamError err =>
    refine WF_of_same_closes s _ ?_ ?_ ?_ ?_ h <;>
      (simp only [step, streamError]; cases hc : s.conn <;> simp [hc])
  | close => exact WF_close s h
  | closeIfIdle =>
    simp only [step, CloseIfIdle]
    by_cases he : s.registry.isEmpty
    · simpa [he] using WF_close s h
    · simpa [he] using h
  | receive raw =>
    simp only [step, receive]
    by_cases hc : s.conn = .Connected
    · simpa [hc] using WF_dispatch s raw h
    · simpa [hc] using h

theorem WF_run (s : Service E) (ops : List (Op E)) (h : s.WF) : (run s ops).WF := by
  induction ops generalizing s with
  | nil => exact h
  | cons op ops ih => exact ih (step s op) (WF_step s op h)

/-- Every state reached from a fresh service satisfies the data-model invariants. -/
theorem WF_reachable (ops : List (Op E)) : (run (Service.init : Service E) ops).WF :=
  WF_run _ ops WF_init

/-! ## Lemmas: the channel of a removed registration is frozen -/

theorem frozen_insert (s : Service E) (sub : Subscriber E) (r : Registration)
    (hlt : r < s.next) (hdead : r ∉ s.handles) :
    lookupChan (s.insert sub).2.channels r = lookupChan s.channels r ∧
      r < (s.insert sub).2.next ∧ r ∉ (s.insert sub).2.handles := by
  refine ⟨?_, Nat.lt_succ_of_lt hlt, ?_⟩
  · rw [lookupChan_insert]
    cases lookupChan s.channels r with
    | some c => rfl
    | none =>
      have hn : ¬ s.next = r := fun e => Nat.lt_irrefl _ (e ▸ hlt)
      simp [hn]
  · rw [handles_insert, List.mem_append, List.mem_singleton, not_or]
    exact ⟨hdead, fun e => Nat.lt_irrefl _ (e ▸ hlt)⟩

theorem frozen_step (s : Service E) (op : Op E) (r : Registration) (h : s.WF)
    (hlt : r < s.next) (hdead : r ∉ s.handles) :
    lookupChan (step s op).channels r = lookupChan s.channels r ∧
      r < (step s op).next ∧ r ∉ (step s op).handles := by
  have hsame : lookupChan s.channels r = lookupChan s.channels r ∧ r < s.next ∧
      r ∉ s.handles := ⟨rfl, hlt, hdead⟩
  cases op with
  | registerBlockEvent authorized filter =>
    simp only [step, RegisterBlockEvent]
    by_cases hc : s.conn = .Closed
    · simpa [hc] using hsame
    · cases authorized with
      | false => simpa [hc] using hsame
      | true =>
        match filter with
        | [] => simpa [hc] using frozen_insert s _ r hlt hdead
        | [f] => simpa [hc] using frozen_insert s _ r hlt hdead
        | _ :: _ :: _ => simpa [hc] using hsame
  | registerFilteredBlockEvent =>
    simp only [step, RegisterFilteredBlockEvent]
    by_cases hc : s.conn = .Closed
    · simpa [hc] using hsame
    · simpa [hc] using frozen_insert s _ r hlt hdead
  | registerChaincodeEvent ccID eventFilter =>
    simp only [step, RegisterChaincodeEvent]
    by_cases hc : s.conn = .Closed
    · simpa [hc] using hsame
    · cases hp : E.compile eventFilter with
      | none => simpa [hc, hp] using hsame
      | some pattern => simpa [hc, hp] using frozen_insert s _ r hlt hdead
  | registerTxStatusEvent txID =>
    simp only [step, RegisterTxStatusEvent]
    by_cases hc : s.conn = .Closed
    · simpa [hc] using hsame
    · by_cases ht : txID = ""
      · simpa [hc, ht] using hsame
      · simpa [hc, ht] using frozen_insert s _ r hlt hdead
  | unregister reg =>
    simp only [step]
    by_cases hr0 : reg ∈ s.handles
    · rw [unregister_of_registered s reg hr0]
      have hne : r ≠ reg := fun e => hdead (e ▸ hr0)
      refine ⟨?_, hlt, ?_⟩
      · simp only [lookupChan_closeChan, hne, if_false]
      · intro hm
        exact hdead ((handles_filter s.registry reg r).mp hm).1
    · rw [unregister_of_unknown s reg hr0]
      exact hsame
  | connect => simp only [step, Connect]; cases hc : s.conn <;> simpa [hc] using hsame
  | streamEstablished =>
    simp only [step, streamEstablished]; cases hc : s.conn <;> simpa [hc] using hsame
  | dialTimeout => simp only [step, dialTimeout]; cases hc : s.conn <;> simpa [hc] using hsame
  | streamError err =>
    simp only [step, streamError]; cases hc : s.conn <;> simpa [hc] using hsame
  | close =>
    simp only [step, Close]
    by_cases hc : s.conn = .Closed
    · simpa [hc] using hsame
    · rw [if_neg hc]
      refine ⟨?_, hlt, ?_⟩
      · rw [lookupChan_finishClose s r h.regNodup, if_neg hdead]
      · intro hm; cases hm
  | closeIfIdle =>
    simp only [step, CloseIfIdle]
    by_cases he : s.registry.isEmpty
    · simp only [he, if_true, Close]
      by_cases hc : s.conn = .Closed
      · simpa [hc] using hsame
      · rw [if_neg hc]
        refine ⟨?_, hlt, ?_⟩
        · rw [lookupChan_finishClose s r h.regNodup, if_neg hdead]
        · intro hm; cases hm
    · simpa [he] using hsame
  | receive raw =>
    simp only [step, receive]
    by_cases hc : s.conn = .Connected
    · rw [if_pos hc]
      refine ⟨?_, hlt, hdead⟩
      rw [lookupChan_dispatch s raw r h.regNodup,
        (lookupSub_eq_none_iff s.registry r).mpr hdead]
    · simpa [hc] using hsame

/-- Once a handle has been issued and removed, no sequence of operations touches its channel
again: nothing is sent on it and it is not closed a second time. -/
theorem frozen_run (s : Service E) (ops : List (Op E)) (r : Registration) (h : s.WF)
    (hlt : r < s.next) (hdead : r ∉ s.handles) :
    lookupChan (run s ops).channels r = lookupChan s.channels r := by
  induction ops generalizing s with
  | nil => rfl
  | cons op ops ih =>
    obtain ⟨h1, h2, h3⟩ := frozen_step s op r h hlt hdead
    show lookupChan (run (step s op) ops).channels r = _
    rw [ih (step s op) (WF_step s op h) h2 h3, h1]

theorem dead_run (s : Service E) (ops : List (Op E)) (r : Registration) (h : s.WF)
    (hlt : r < s.next) (hdead : r ∉ s.handles) : r ∉ (run s ops).handles := by
  induction ops generalizing s with
  | nil => exact hdead
  | cons op ops ih =>
    obtain ⟨_, h2, h3⟩ := frozen_step s op r h hlt hdead
    exact ih (step s op) (WF_step s op h) h2 h3

end Fab

/-! ## Theorems: event service (modelled from the specification) -/

namespace Fab

variable {E : RegexpEngine}

theorem lookupSub_append_single (reg : List (Registration × Subscriber E)) (n r : Registration)
    (sub : Subscriber E) :
    lookupSub (reg ++ [(n, sub)]) r =
      match lookupSub reg r with
      | some sub' => some sub'
      | none => if n = r then some sub else none := by
  induction reg with
  | nil => simp [lookupSub_cons, lookupSub]
  | cons p reg ih =>
    rw [List.cons_append, lookupSub_cons, lookupSub_cons, ih]
    by_cases h : p.1 = r
    · simp [h]
    · simp [h]

theorem insert_outstanding (s : Service E) (sub : Subscriber E) (h : s.WF) :
    lookupSub (s.insert sub).2.registry s.next = some sub := by
  have hfresh : s.next ∉ s.handles := fun hm => Nat.lt_irrefl _ (h.regLt _ hm)
  show lookupSub (s.registry ++ [(s.next, sub)]) s.next = some sub
  rw [lookupSub_append_single, (lookupSub_eq_none_iff s.registry s.next).mpr hfresh]
  simp

/-- A handle returned by a successful `Register*` call is the fresh handle, and its record is
in the registry afterwards. -/
theorem register_issues_outstanding (s : Service E) (h : s.WF) (op : Op E) (r : Registration)
    (hres : registerResult s op = some (.ok r)) :
    r = s.next ∧ ∃ sub, lookupSub (step s op).registry r = some sub := by
  cases op with
  | registerBlockEvent authorized filter =>
    simp only [registerResult, RegisterBlockEvent, Option.some.injEq] at hres
    simp only [step, RegisterBlockEvent]
    by_cases hc : s.conn = .Closed
    · simp [hc] at hres
    · cases authorized with
      | false => simp [hc] at hres
      | true =>
        match filter with
        | [] =>
          simp only [hc, if_false, Bool.not_true, Service.insert] at hres
          have hr : r = s.next := by injection hres with e; exact e.symm
          subst hr
          exact ⟨rfl, _, by simpa [hc] using insert_outstanding s (.block none) h⟩
        | [f] =>
          simp only [hc, if_false, Bool.not_true, Service.insert] at hres
          have hr : r = s.next := by injection hres with e; exact e.symm
          subst hr
          exact ⟨rfl, _, by simpa [hc] using insert_outstanding s (.block (some f)) h⟩
        | _ :: _ :: _ => simp [hc] at hres
  | registerFilteredBlockEvent =>
    simp only [registerResult, RegisterFilteredBlockEvent, Option.some.injEq] at hres
    simp only [step, RegisterFilteredBlockEvent]
    by_cases hc : s.conn = .Closed
    · simp [hc] at hres
    · simp only [hc, if_false, Service.insert] at hres
      have hr : r = s.next := by injection hres with e; exact e.symm
      subst hr
      exact ⟨rfl, _, by simpa [hc] using insert_outstanding s .filteredBlock h⟩
  | registerChaincodeEvent ccID eventFilter =>
    simp only [registerResult, RegisterChaincodeEvent, Option.some.injEq] at hres
    simp only [step, RegisterChaincodeEvent]
    by_cases hc : s.conn = .Closed
    · simp [hc] at hres
    · cases hp : E.compile eventFilter with
      | none => simp [hc, hp] at hres
      | some pattern =>
        simp only [hc, hp, if_false, Service.insert] at hres
        have hr : r = s.next := by injection hres with e; exact e.symm
        subst hr
        exact ⟨rfl, _, by simpa [hc, hp] using insert_outstanding s (.chaincode ccID pattern) h⟩
  | registerTxStatusEvent txID =>
    simp only [registerResult, RegisterTxStatusEvent, Option.some.injEq] at hres
    simp only [step, RegisterTxStatusEvent]
    by_cases hc : s.conn = .Closed
    · simp [hc] at hres
    · by_cases ht : txID = ""
      · simp [hc, ht] at hres
      · simp only [hc, ht, if_false, Service.insert] at hres
        have hr : r = s.next := by injection hres with e; exact e.symm
        subst hr
        exact ⟨rfl, _, by simpa [hc, ht] using insert_outstanding s (.txStatus txID) h⟩
  | unregister reg => simp [registerResult] at hres
  | connect => simp [registerResult] at hres
  | streamEstablished => simp [registerResult] at hres
  | dialTimeout => simp [registerResult] at hres
  | streamError err => simp [registerResult] at hres
  | close => simp [registerResult] at hres
  | closeIfIdle => simp [registerResult] at hres
  | receive raw => simp [registerResult] at hres

theorem close_conn (s : Service E) : (Close s).conn = .Closed := by
  unfold Close
  by_cases hc : s.conn = .Closed
  · rw [if_pos hc]; exact hc
  · rw [if_neg hc]; rfl

theorem close_registry (s : Service E) (h : s.WF) : (Close s).registry = [] := by
  unfold Close
  by_cases hc : s.conn = .Closed
  · rw [if_pos hc]; exact h.closedEmpty hc
  · rw [if_neg hc]; rfl

/-- C1: `CloseIfIdle` returns true if and only if the registry is empty at the check; when it
returns true it has performed the transition of `Close` and the connection state is `Closed`;
when it returns false the whole state (connection state and registry included) is unchanged. -/
theorem closeIfIdle_true_iff_registry_empty (s : Service E) :
    ((CloseIfIdle s).1 = true ↔ s.registry = []) ∧
      ((CloseIfIdle s).1 = true →
        (CloseIfIdle s).2 = Close s ∧ (CloseIfIdle s).2.conn = .Closed) ∧
      ((CloseIfIdle s).1 = false → (CloseIfIdle s).2 = s) := by
  unfold CloseIfIdle
  by_cases he : s.registry.isEmpty
  · have hnil : s.registry = [] := List.isEmpty_iff.mp he
    simp [he, hnil, close_conn]
  · have hnil : s.registry ≠ [] := fun e => he (List.isEmpty_iff.mpr e)
    simp [he, hnil]

/-- Witness for C1: an idle connected client is closed, a client with one registration is
left alone. -/
theorem closeIfIdle_true_iff_registry_empty_witness :
    (CloseIfIdle (run (Service.init : Service miniRegexp) [.connect, .streamEstablished])).1
        = true ∧
      (CloseIfIdle (run (Service.init : Service miniRegexp)
        [.connect, .streamEstablished])).2.conn = .Closed ∧
      (CloseIfIdle (run (Service.init : Service miniRegexp) twoFilteredSubscribers)).1
        = false ∧
      (CloseIfIdle (run (Service.init : Service miniRegexp) twoFilteredSubscribers)).2 =
        run (Service.init : Service miniRegexp) twoFilteredSubscribers :=
  ⟨rfl,
    ((closeIfIdle_true_iff_registry_empty
      (run (Service.init : Service miniRegexp) [.connect, .streamEstablished])).2.1 rfl).2,
    rfl,
    (closeIfIdle_true_iff_registry_empty
      (run (Service.init : Service miniRegexp) twoFilteredSubscribers)).2.2 rfl⟩

/-- C2: in a state reached from a fresh service, a handle returned by a successful `Register*`
call is outstanding, and `Unregister` of an outstanding handle removes its record and closes
its channel; from then on, whatever operations follow, the record stays absent and the channel
keeps the events it had and a close count of exactly one.  `Unregister` of a handle without a
record is a no-op, and two `Unregister` calls on one handle leave the same state as a single
call. -/
theorem unregister_closes_once (pre : List (Op E)) (r : Registration) (sub : Subscriber E)
    (hreg : lookupSub (run (Service.init : Service E) pre).registry r = some sub) :
    (∃ c, lookupChan (run (Service.init : Service E) pre).channels r = some c ∧ c.closes = 0 ∧
        ∀ post : List (Op E),
          lookupSub (run (Unregister (run Service.init pre) r) post).registry r = none ∧
          lookupChan (run (Unregister (run Service.init pre) r) post).channels r =
            some { delivered := c.delivered, closes := 1 }) ∧
      (∀ (op : Op E) (r' : Registration),
        registerResult (run (Service.init : Service E) pre) op = some (.ok r') →
          ∃ sub', lookupSub (run (Service.init : Service E) (pre ++ [op])).registry r' =
            some sub') ∧
      (∀ (s : Service E) (r' : Registration), lookupSub s.registry r' = none →
        Unregister s r' = s) ∧
      (∀ (s : Service E) (r' : Registration),
        Unregister (Unregister s r') r' = Unregister s r') := by
  have hnoop : ∀ (s : Service E) (r' : Registration), lookupSub s.registry r' = none →
      Unregister s r' = s := by
    intro s r' hn
    simp [Unregister, hn]
  have hgone : ∀ (s : Service E) (r' : Registration),
      lookupSub (Unregister s r').registry r' = none := by
    intro s r'
    cases hl : lookupSub s.registry r' with
    | none => rw [hnoop s r' hl]; exact hl
    | some sub' =>
      rw [unregister_of_registered s r' (mem_handles_of_lookupSub _ _ _ hl)]
      rw [lookupSub_eq_none_iff]
      intro hm
      exact ((handles_filter s.registry r' r').mp hm).2 rfl
  have hwf := WF_reachable (E := E) pre
  refine ⟨?_, ?_, hnoop, fun s r' => hnoop _ _ (hgone s r')⟩
  swap
  · intro op r' hres
    have := (register_issues_outstanding _ hwf op r' hres).2
    simpa [run, List.foldl_append] using this
  have hmem := mem_handles_of_lookupSub _ _ _ hreg
  obtain ⟨c, hc, h0⟩ := hwf.regOpen r hmem
  refine ⟨c, hc, h0, ?_⟩
  intro post
  have hwf' := WF_unregister _ r hwf
  have hdead : r ∉ (Unregister (run (Service.init : Service E) pre) r).handles :=
    (lookupSub_eq_none_iff _ _).mp (hgone _ r)
  have hlt : r < (Unregister (run (Service.init : Service E) pre) r).next := by
    rw [unregister_of_registered _ r hmem]
    exact hwf.regLt r hmem
  refine ⟨(lookupSub_eq_none_iff _ _).mpr (dead_run _ post r hwf' hlt hdead), ?_⟩
  rw [frozen_run _ post r hwf' hlt hdead, unregister_of_registered _ r hmem]
  simp only [lookupChan_closeChan, if_true, hc, Option.map_some']
  simp [Channel.close, h0]

theorem txEvents_not_block (txs : List Transaction) (ev : Event)
    (h : ev ∈ txs.flatMap txEvents) : (∃ e, ev = .txStatus e) ∨ (∃ e, ev = .cc e) := by
  rw [List.mem_flatMap] at h
  obtain ⟨tx, _, hev⟩ := h
  simp only [txEvents, List.mem_cons, List.mem_map] at hev
  rcases hev with hev | ⟨ce, _, hev⟩
  · exact Or.inl ⟨_, hev⟩
  · exact Or.inr ⟨_, hev.symm⟩

/-- What a block subscriber takes from one raw block: the block event when there is no filter
or the filter is true on the block, and nothing else. -/
theorem filter_block_subscriber (filter : Option BlockFilter) (b : Block) :
    (deriveEvents (.block b)).filter (Subscriber.block filter : Subscriber E).accepts =
      if blockPasses filter b = true then [.block ⟨b⟩] else [] := by
  have hrest : (b.Transactions.flatMap txEvents).filter
      (Subscriber.block filter : Subscriber E).accepts = [] := by
    rw [List.filter_eq_nil_iff]
    intro ev hev
    rcases txEvents_not_block _ ev hev with ⟨e, rfl⟩ | ⟨e, rfl⟩ <;>
      simp [Subscriber.accepts]
  simp only [deriveEvents, List.filter_cons, hrest]
  by_cases hf : blockPasses filter b = true
  · simp [Subscriber.accepts, hf]
  · simp [Subscriber.accepts, hf]

theorem count_pushAll (c : Channel) (evs : List Event) (ev : Event) :
    (c.pushAll evs).delivered.count ev = c.delivered.count ev + evs.count ev := by
  simp [Channel.pushAll, List.count_append]

/-- C3: in a state reached from a fresh service, for every list of registered handles that
carry the same record (same kind, same filter) and every raw event, one dispatch pass extends
each of their channels by exactly the derived events the record accepts, in order: an
accepted event is delivered to each channel as many times as the raw event yields it (once
when it yields it once, as for the block event of a raw block), no channel is skipped, none
is closed. -/
theorem dispatch_fans_out (pre : List (Op E)) (sub : Subscriber E) (regs : List Registration)
    (raw : RawEvent)
    (hregs : ∀ r ∈ regs, lookupSub (run (Service.init : Service E) pre).registry r = some sub) :
    (∀ r ∈ regs, ∃ c, lookupChan (run (Service.init : Service E) pre).channels r = some c ∧
        lookupChan (dispatch (run Service.init pre) raw).channels r =
          some (c.pushAll ((deriveEvents raw).filter sub.accepts)) ∧
        ∀ ev, sub.accepts ev = true →
          (c.pushAll ((deriveEvents raw).filter sub.accepts)).delivered.count ev =
            c.delivered.count ev + (deriveEvents raw).count ev) ∧
      (∀ b : Block, (deriveEvents (.block b)).count (.block ⟨b⟩) = 1) ∧
      (∀ fb : FilteredBlock,
        (deriveEvents (.filteredBlock fb)).count (.filteredBlock ⟨fb⟩) = 1) := by
  have hwf := WF_reachable (E := E) pre
  have hcount : ∀ (txs : List Transaction) (ev : Event),
      ((∃ e, ev = .block e) ∨ (∃ e, ev = .filteredBlock e)) →
      (txs.flatMap txEvents).count ev = 0 := by
    intro txs ev hev
    rw [List.count_eq_zero]
    intro hm
    rcases txEvents_not_block txs ev hm with ⟨e, rfl⟩ | ⟨e, rfl⟩ <;>
      rcases hev with ⟨e', he⟩ | ⟨e', he⟩ <;> cases he
  refine ⟨?_, ?_, ?_⟩
  · intro r hr
    have hsub := hregs r hr
    obtain ⟨c, hc, _⟩ := hwf.regOpen r (mem_handles_of_lookupSub _ _ _ hsub)
    refine ⟨c, hc, ?_, ?_⟩
    · rw [lookupChan_dispatch _ raw r hwf.regNodup, hsub, hc]
      rfl
    · intro ev hev
      rw [count_pushAll, List.count_filter hev]
  · intro b
    simp only [deriveEvents, List.count_cons_self]
    rw [hcount _ _ (Or.inl ⟨_, rfl⟩)]
  · intro fb
    simp only [deriveEvents, List.count_cons_self]
    rw [hcount _ _ (Or.inr ⟨_, rfl⟩)]

/-- Witness for C3: two filtered-block registrations, one raw filtered block. -/
theorem dispatch_fans_out_witness :
    (∀ r ∈ [0, 1],
        lookupSub (run (Service.init : Service miniRegexp) twoFilteredSubscribers).registry r =
          some .filteredBlock) ∧
      lookupChan (dispatch (run (Service.init : Service miniRegexp) twoFilteredSubscribers)
        (.filteredBlock ⟨3, []⟩)).channels 0 =
          some { delivered := [.filteredBlock ⟨⟨3, []⟩⟩], closes := 0 } ∧
      lookupChan (dispatch (run (Service.init : Service miniRegexp) twoFilteredSubscribers)
        (.filteredBlock ⟨3, []⟩)).channels 1 =
          some { delivered := [.filteredBlock ⟨⟨3, []⟩⟩], closes := 0 } := by
  have hregs : ∀ r ∈ [0, 1],
      lookupSub (run (Service.init : Service miniRegexp) twoFilteredSubscribers).registry r =
        some .filteredBlock := by
    intro r hr
    simp only [List.mem_cons, List.mem_singleton, List.not_mem_nil, or_false] at hr
    rcases hr with rfl | rfl <;> rfl
  have h := (dispatch_fans_out twoFilteredSubscribers .filteredBlock [0, 1]
    (.filteredBlock ⟨3, []⟩) hregs).1
  refine ⟨hregs, ?_, ?_⟩
  · obtain ⟨c, hc, hd, _⟩ := h 0 (by simp)
    rw [hd]
    have : c = { delivered := [], closes := 0 } := Option.some.inj (hc.symm.trans rfl)
    rw [this]; rfl
  · obtain ⟨c, hc, hd, _⟩ := h 1 (by simp)
    rw [hd]
    have : c = { delivered := [], closes := 0 } := Option.some.inj (hc.symm.trans rfl)
    rw [this]; rfl

theorem pushAll_pushAll (c : Channel) (xs ys : List Event) :
    (c.pushAll xs).pushAll ys = c.pushAll (xs ++ ys) := by
  simp [Channel.pushAll, List.append_assoc]

theorem dispatchBlocks_registry (s : Service E) (blocks : List Block) :
    (dispatchBlocks s blocks).registry = s.registry := by
  induction blocks generalizing s with
  | nil => rfl
  | cons b bs ih =>
    show (dispatchBlocks (dispatch s (.block b)) bs).registry = _
    rw [ih]; rfl

theorem dispatchBlocks_lookup (s : Service E) (h : s.WF) (r : Registration)
    (filter : Option BlockFilter) (c : Channel)
    (hreg : lookupSub s.registry r = some (.block filter))
    (hc : lookupChan s.channels r = some c) (blocks : List Block) :
    lookupChan (dispatchBlocks s blocks).channels r =
      some (c.pushAll ((blocks.filter (blockPasses filter)).map fun b => .block ⟨b⟩)) := by
  induction blocks generalizing s c with
  | nil => simp [dispatchBlocks, hc, Channel.pushAll]
  | cons b bs ih =>
    show lookupChan (dispatchBlocks (dispatch s (.block b)) bs).channels r = _
    have h1 : lookupChan (dispatch s (.block b)).channels r =
        some (c.pushAll (if blockPasses filter b = true then [.block ⟨b⟩] else [])) := by
      rw [lookupChan_dispatch s _ r h.regNodup, hreg, hc]
      simp only [Option.map_some', filter_block_subscriber]
    rw [ih (dispatch s (.block b)) (WF_dispatch s _ h) _ hreg h1, pushAll_pushAll]
    by_cases hf : blockPasses filter b = true
    · simp [hf, List.filter_cons]
    · simp [hf, List.filter_cons]

/-- C4: a block subscriber registered in a reachable state receives, over any stream of raw
blocks, exactly the blocks for which no filter is set or the filter is true, one delivery
each and in stream order; a filter that is false on all blocks yields no delivery, a filter
that is true on all blocks (or no filter) yields one delivery per block. -/
theorem block_filter_decides_delivery (pre : List (Op E)) (r : Registration)
    (filter : Option BlockFilter) (blocks : List Block)
    (hreg : lookupSub (run (Service.init : Service E) pre).registry r = some (.block filter)) :
    ∃ c, lookupChan (run (Service.init : Service E) pre).channels r = some c ∧
      lookupChan (dispatchBlocks (run Service.init pre) blocks).channels r =
        some (c.pushAll ((blocks.filter (blockPasses filter)).map fun b => .block ⟨b⟩)) ∧
      (∀ b, blockPasses filter b = true ↔ (filter = none ∨ ∃ f, filter = some f ∧ f b = true)) ∧
      (∀ f, filter = some f → (∀ b, f b = false) →
        lookupChan (dispatchBlocks (run Service.init pre) blocks).channels r = some c) ∧
      (∀ f, filter = some f → (∀ b, f b = true) →
        lookupChan (dispatchBlocks (run Service.init pre) blocks).channels r =
          some (c.pushAll (blocks.map fun b => .block ⟨b⟩))) ∧
      (filter = none →
        lookupChan (dispatchBlocks (run Service.init pre) blocks).channels r =
          some (c.pushAll (blocks.map fun b => .block ⟨b⟩))) := by
  have hwf := WF_reachable (E := E) pre
  obtain ⟨c, hc, _⟩ := hwf.regOpen r (mem_handles_of_lookupSub _ _ _ hreg)
  have key := dispatchBlocks_lookup _ hwf r filter c hreg hc blocks
  refine ⟨c, hc, key, ?_, ?_, ?_, ?_⟩
  · intro b
    cases filter with
    | none => simp [blockPasses]
    | some f => simp [blockPasses]
  · intro f hf hall
    rw [key]
    have : blocks.filter (blockPasses filter) = [] := by
      rw [List.filter_eq_nil_iff]
      intro b _
      simp [hf, blockPasses, hall b]
    simp [this, Channel.pushAll]
  · intro f hf hall
    rw [key]
    have : blocks.filter (blockPasses filter) = blocks := by
      rw [List.filter_eq_self]
      intro b _
      simp [hf, blockPasses, hall b]
    rw [this]
  · intro hf
    rw [key]
    have : blocks.filter (blockPasses filter) = blocks := by
      rw [List.filter_eq_self]
      intro b _
      simp [hf, blockPasses]
    rw [this]

/-- Witness for C4: a subscriber whose filter is always false sees nothing of two blocks. -/
theorem block_filter_decides_delivery_witness :
    lookupSub (run (Service.init : Service miniRegexp)
        [.connect, .streamEstablished, .registerBlockEvent true [passNone]]).registry 0 =
        some (.block (some passNone)) ∧
      lookupChan (dispatchBlocks (run (Service.init : Service miniRegexp)
        [.connect, .streamEstablished, .registerBlockEvent true [passNone]])
        [sampleBlock, sampleBlock]).channels 0 = some { delivered := [], closes := 0 } := by
  refine ⟨rfl, ?_⟩
  obtain ⟨c, hc, _, _, hnone, _⟩ := block_filter_decides_delivery
    (E := miniRegexp) [.connect, .streamEstablished, .registerBlockEvent true [passNone]] 0
    (some passNone) [sampleBlock, sampleBlock] rfl
  rw [hnone passNone rfl (fun _ => rfl), ← hc]
  rfl

/-- Witness for C2: the first of two filtered-block registrations is removed. -/
theorem unregister_closes_once_witness :
    lookupSub (run (Service.init : Service miniRegexp) twoFilteredSubscribers).registry 0 =
        some .filteredBlock ∧
      ∃ c, lookupChan (run (Service.init : Service miniRegexp) twoFilteredSubscribers).channels 0
          = some c ∧ c.closes = 0 ∧
        ∀ post : List (Op miniRegexp),
          lookupSub (run (Unregister (run Service.init twoFilteredSubscribers) 0) post).registry
            0 = none ∧
          lookupChan (run (Unregister (run Service.init twoFilteredSubscribers) 0) post).channels
            0 = some { delivered := c.delivered, closes := 1 } :=
  ⟨rfl, (unregister_closes_once twoFilteredSubscribers 0 .filteredBlock rfl).1⟩

/-- C5: a chaincode subscriber registered (in a reachable state) with chaincode ID `ccID` and a
compiled event-name pattern receives, in one dispatch pass, exactly the chaincode events of the
raw event whose chaincode ID equals `ccID` and whose name the pattern matches, and nothing
else.  With ID `cc1` and pattern `^evt.*`, a block carrying the events `evt1` of `cc1`, `evt1`
of `cc2`, `other` of `cc1` and `evtX` of `cc1` yields `evt1` and `evtX` of `cc1` only. -/
theorem chaincode_subscriber_receives_iff (pre : List (Op E)) (r : Registration)
    (ccID : String) (pattern : E.Compiled) (raw : RawEvent)
    (hreg : lookupSub (run (Service.init : Service E) pre).registry r =
      some (.chaincode ccID pattern)) :
    (∃ c, lookupChan (run (Service.init : Service E) pre).channels r = some c ∧
        lookupChan (dispatch (run Service.init pre) raw).channels r =
          some (c.pushAll
            ((deriveEvents raw).filter (Subscriber.chaincode ccID pattern : Subscriber E).accepts)) ∧
        ∀ ev, ev ∈ (deriveEvents raw).filter
            (Subscriber.chaincode ccID pattern : Subscriber E).accepts ↔
          ∃ e : CCEvent, ev = .cc e ∧ .cc e ∈ deriveEvents raw ∧ e.ChaincodeID = ccID ∧
            E.matchString pattern e.EventName = true) ∧
      (∀ e : CCEvent, (Subscriber.chaincode ccID pattern : Subscriber E).accepts (.cc e) = true ↔
        e.ChaincodeID = ccID ∧ E.matchString pattern e.EventName = true) ∧
      lookupChan (run (Service.init : Service miniRegexp)
        [.registerChaincodeEvent "cc1" "^evt.*", .connect, .streamEstablished,
          .receive (.block sampleBlock)]).channels 0 =
        some { delivered := [.cc ⟨"abc123", "cc1", "evt1"⟩, .cc ⟨"abc123", "cc1", "evtX"⟩],
               closes := 0 } := by
  have hwf := WF_reachable (E := E) pre
  have hacc : ∀ e : CCEvent,
      (Subscriber.chaincode ccID pattern : Subscriber E).accepts (.cc e) = true ↔
        e.ChaincodeID = ccID ∧ E.matchString pattern e.EventName = true := by
    intro e
    simp [Subscriber.accepts]
  refine ⟨?_, hacc, rfl⟩
  obtain ⟨c, hc, _⟩ := hwf.regOpen r (mem_handles_of_lookupSub _ _ _ hreg)
  refine ⟨c, hc, ?_, ?_⟩
  · rw [lookupChan_dispatch _ raw r hwf.regNodup, hreg, hc]
    rfl
  · intro ev
    rw [List.mem_filter]
    constructor
    · rintro ⟨hm, ha⟩
      cases ev with
      | cc e => exact ⟨e, rfl, hm, (hacc e).mp ha⟩
      | block e => simp [Subscriber.accepts] at ha
      | filteredBlock e => simp [Subscriber.accepts] at ha
      | txStatus e => simp [Subscriber.accepts] at ha
    · rintro ⟨e, rfl, hm, hid, hmatch⟩
      exact ⟨hm, (hacc e).mpr ⟨hid, hmatch⟩⟩

/-- Witness for C5: the subscriber of the example, registered on a fresh service. -/
theorem chaincode_subscriber_receives_iff_witness :
    lookupSub (run (Service.init : Service miniRegexp)
        [.registerChaincodeEvent "cc1" "^evt.*"]).registry 0 =
        some (.chaincode "cc1" ⟨true, [⟨.lit 'e', false⟩, ⟨.lit 'v', false⟩, ⟨.lit 't', false⟩,
          ⟨.any, true⟩], false⟩) ∧
      ((Subscriber.chaincode "cc1" (⟨true, [⟨.lit 'e', false⟩, ⟨.lit 'v', false⟩,
          ⟨.lit 't', false⟩, ⟨.any, true⟩], false⟩ : MiniPattern) :
          Subscriber miniRegexp).accepts (.cc ⟨"abc123", "cc2", "evt1"⟩) = true ↔
        "cc2" = "cc1" ∧ miniRegexp.matchString (⟨true, [⟨.lit 'e', false⟩, ⟨.lit 'v', false⟩,
          ⟨.lit 't', false⟩, ⟨.any, true⟩], false⟩ : MiniPattern) "evt1" = true) :=
  ⟨rfl, (chaincode_subscriber_receives_iff (E := miniRegexp)
    [.registerChaincodeEvent "cc1" "^evt.*"] 0 "cc1" _ (.block sampleBlock) rfl).2.1
      ⟨"abc123", "cc2", "evt1"⟩⟩

/-- C6: on a service that is not closed and for an authorized caller, `RegisterBlockEvent`
with zero or one filter succeeds (it returns the fresh handle and adds one block record with
that filter), and with two or more filters it fails with `InvalidArgument`; with two or more
filters the state, the registry included, is unchanged whatever the state and the caller. -/
theorem registerBlockEvent_at_most_one_filter (s : Service E) (authorized : Bool)
    (filter : List BlockFilter) :
    (s.conn ≠ .Closed → authorized = true → filter.length ≤ 1 →
        (RegisterBlockEvent s authorized filter).1 = .ok s.next ∧
        (RegisterBlockEvent s authorized filter).2.registry =
          s.registry ++ [(s.next, .block filter.head?)]) ∧
      (s.conn ≠ .Closed → authorized = true → 2 ≤ filter.length →
        (RegisterBlockEvent s authorized filter).1 = .error .InvalidArgument) ∧
      (2 ≤ filter.length → (RegisterBlockEvent s authorized filter).2 = s) := by
  refine ⟨?_, ?_, ?_⟩
  · intro hopen hauth hlen
    subst hauth
    match filter, hlen with
    | [], _ => simp [RegisterBlockEvent, hopen, Service.insert]
    | [f], _ => simp [RegisterBlockEvent, hopen, Service.insert]
    | _ :: _ :: _, hlen => simp at hlen
  · intro hopen hauth hlen
    subst hauth
    match filter, hlen with
    | [], hlen => simp at hlen
    | [f], hlen => simp at hlen
    | _ :: _ :: _, _ => simp [RegisterBlockEvent, hopen]
  · intro hlen
    match filter, hlen with
    | [], hlen => simp at hlen
    | [f], hlen => simp at hlen
    | _ :: _ :: _, _ =>
      unfold RegisterBlockEvent
      by_cases hc : s.conn = .Closed
      · simp [hc]
      · cases authorized <;> simp [hc]

/-- Witness for C6: no filter, one filter and two filters on a fresh service. -/
theorem registerBlockEvent_at_most_one_filter_witness :
    (RegisterBlockEvent (Service.init : Service miniRegexp) true []).1 = .ok 0 ∧
      (RegisterBlockEvent (Service.init : Service miniRegexp) true [passAll]).1 = .ok 0 ∧
      (RegisterBlockEvent (Service.init : Service miniRegexp) true [passAll, passNone]).1 =
        .error .InvalidArgument ∧
      (RegisterBlockEvent (Service.init : Service miniRegexp) true [passAll, passNone]).2 =
        Service.init :=
  ⟨((registerBlockEvent_at_most_one_filter (Service.init : Service miniRegexp) true []).1
      (by decide) rfl (by decide)).1,
    ((registerBlockEvent_at_most_one_filter (Service.init : Service miniRegexp) true
      [passAll]).1 (by decide) rfl (by decide)).1,
    (registerBlockEvent_at_most_one_filter (Service.init : Service miniRegexp) true
      [passAll, passNone]).2.1 (by decide) rfl (by decide),
    (registerBlockEvent_at_most_one_filter (Service.init : Service miniRegexp) true
      [passAll, passNone]).2.2 (by decide)⟩

theorem closed_step (s : Service E) (op : Op E) (hc : s.conn = .Closed) :
    (step s op).conn = .Closed := by
  cases op with
  | registerBlockEvent authorized filter => simp [step, RegisterBlockEvent, hc]
  | registerFilteredBlockEvent => simp [step, RegisterFilteredBlockEvent, hc]
  | registerChaincodeEvent ccID eventFilter => simp [step, RegisterChaincodeEvent, hc]
  | registerTxStatusEvent txID => simp [step, RegisterTxStatusEvent, hc]
  | unregister reg =>
    simp only [step, Unregister]
    cases lookupSub s.registry reg <;> simp [hc]
  | connect => simp [step, Connect, hc]
  | streamEstablished => simp [step, streamEstablished, hc]
  | dialTimeout => simp [step, dialTimeout, hc]
  | streamError err => simp [step, streamError, hc]
  | close => simp [step, Close, hc]
  | closeIfIdle =>
    simp only [step, CloseIfIdle]
    by_cases he : s.registry.isEmpty
    · simp [he, close_conn]
    · simp [he, hc]
  | receive raw => simp [step, receive, hc]

theorem closed_run (s : Service E) (ops : List (Op E)) (hc : s.conn = .Closed) :
    (run s ops).conn = .Closed := by
  induction ops generalizing s with
  | nil => exact hc
  | cons op ops ih => exact ih (step s op) (closed_step s op hc)

/-- C7: `Close` is terminal.  From every state (`Disconnected`, `Connecting` and `Connected`
among them) it leads to `Closed`; no operation leaves `Closed`; every `Register*` call on a
closed service fails with `ServiceClosed` and changes nothing.  In a state reached from a
fresh service, `Close` closes the channel of every remaining registration (open until then)
and leaves an empty registry, and from then on every channel handed out so far keeps its
events and a close count of exactly one, whatever operations follow. -/
theorem close_is_terminal (pre : List (Op E)) :
    (∀ s : Service E, (Close s).conn = .Closed) ∧
      (∀ (s : Service E) (post : List (Op E)), s.conn = .Closed →
        (run s post).conn = .Closed) ∧
      (∀ (s : Service E) (op : Op E) (res : Except EventError Registration),
        s.conn = .Closed → registerResult s op = some res →
          res = .error .ServiceClosed ∧ step s op = s) ∧
      (Close (run (Service.init : Service E) pre)).registry = [] ∧
      (∀ r ∈ (run (Service.init : Service E) pre).handles,
        ∃ c, lookupChan (run (Service.init : Service E) pre).channels r = some c ∧
          c.closes = 0 ∧
          lookupChan (Close (run Service.init pre)).channels r = some c.close) ∧
      (∀ r c, lookupChan (run (Service.init : Service E) pre).channels r = some c →
        ∀ post : List (Op E),
          lookupChan (run (Close (run Service.init pre)) post).channels r =
            some { delivered := c.delivered, closes := 1 }) := by
  have hwf := WF_reachable (E := E) pre
  have hclose : ∀ r, lookupChan (Close (run (Service.init : Service E) pre)).channels r =
      if r ∈ (run (Service.init : Service E) pre).handles then
        (lookupChan (run (Service.init : Service E) pre).channels r).map Channel.close
      else lookupChan (run (Service.init : Service E) pre).channels r := by
    intro r
    unfold Close
    by_cases hc : (run (Service.init : Service E) pre).conn = .Closed
    · have hnil := hwf.closedEmpty hc
      have hm : r ∉ (run (Service.init : Service E) pre).handles := by
        simp [Service.handles, hnil]
      rw [if_pos hc, if_neg hm]
    · rw [if_neg hc]
      exact lookupChan_finishClose _ r hwf.regNodup
  refine ⟨close_conn, closed_run, ?_, close_registry _ hwf, ?_, ?_⟩
  · intro s op res hc hres
    cases op with
    | registerBlockEvent authorized filter =>
      simp only [registerResult, RegisterBlockEvent, hc, if_true, Option.some.injEq] at hres
      exact ⟨hres.symm, by simp [step, RegisterBlockEvent, hc]⟩
    | registerFilteredBlockEvent =>
      simp only [registerResult, RegisterFilteredBlockEvent, hc, if_true,
        Option.some.injEq] at hres
      exact ⟨hres.symm, by simp [step, RegisterFilteredBlockEvent, hc]⟩
    | registerChaincodeEvent ccID eventFilter =>
      simp only [registerResult, RegisterChaincodeEvent, hc, if_true, Option.some.injEq] at hres
      exact ⟨hres.symm, by simp [step, RegisterChaincodeEvent, hc]⟩
    | registerTxStatusEvent txID =>
      simp only [registerResult, RegisterTxStatusEvent, hc, if_true, Option.some.injEq] at hres
      exact ⟨hres.symm, by simp [step, RegisterTxStatusEvent, hc]⟩
    | unregister reg => simp [registerResult] at hres
    | connect => simp [registerResult] at hres
    | streamEstablished => simp [registerResult] at hres
    | dialTimeout => simp [registerResult] at hres
    | streamError err => simp [registerResult] at hres
    | close => simp [registerResult] at hres
    | closeIfIdle => simp [registerResult] at hres
    | receive raw => simp [registerResult] at hres
  · intro r hr
    obtain ⟨c, hc, h0⟩ := hwf.regOpen r hr
    refine ⟨c, hc, h0, ?_⟩
    rw [hclose r, if_pos hr, hc]
    rfl
  · intro r c hc post
    have hwf' := WF_close _ hwf
    have hdead : r ∉ (Close (run (Service.init : Service E) pre)).handles := by
      simp [Service.handles, close_registry _ hwf]
    have hlt : r < (Close (run (Service.init : Service E) pre)).next := by
      have : (Close (run (Service.init : Service E) pre)).next =
          (run (Service.init : Service E) pre).next := by
        unfold Close
        by_cases hcl : (run (Service.init : Service E) pre).conn = .Closed
        · rw [if_pos hcl]
        · rw [if_neg hcl]; rfl
      rw [this]
      exact hwf.chLt r c hc
    rw [frozen_run _ post r hwf' hlt hdead, hclose r]
    by_cases hm : r ∈ (run (Service.init : Service E) pre).handles
    · obtain ⟨c0, hc0, h0⟩ := hwf.regOpen r hm
      have hcc : c0 = c := Option.some.inj (hc0.symm.trans hc)
      subst hcc
      rw [if_pos hm, hc]
      simp [Channel.close, h0]
    · have h1 := hwf.unregClosed r c hc hm
      rw [if_neg hm, hc]
      simp [← h1]

/-- Witness for C7: closing a connected client with two registrations closes both channels
once, and a later registration is refused. -/
theorem close_is_terminal_witness :
    lookupChan (Close (run (Service.init : Service miniRegexp)
        twoFilteredSubscribers)).channels 1 = some { delivered := [], closes := 1 } ∧
      (∀ post : List (Op miniRegexp),
        lookupChan (run (Close (run Service.init twoFilteredSubscribers)) post).channels 0 =
          some { delivered := [], closes := 1 }) ∧
      RegisterFilteredBlockEvent (Close (run (Service.init : Service miniRegexp)
        twoFilteredSubscribers)) =
        (.error .ServiceClosed, Close (run Service.init twoFilteredSubscribers)) :=
  ⟨rfl,
    (close_is_terminal (E := miniRegexp) twoFilteredSubscribers).2.2.2.2.2 0
      { delivered := [], closes := 0 } rfl,
    rfl⟩

end Fab

/-! ## Theorems: mock infrastructure provider (`pkg/fab/mocks/mockfabricprovider.go`) -/

namespace Mocks

/-- C8: for every input `MockInfraProvider.CreateEventService` panics (it does not come back
with an error result), whereas `MockInfraProvider.CreateChannelMembership` returns a nil
membership and the explicit error `Not implemented`. -/
theorem createEventService_panics (f : MockInfraProvider) (ic : Option ClientContext)
    (chConfig cfg : Option ChannelCfg) :
    f.CreateEventService ic chConfig = .panicked "not implemented" ∧
      (f.CreateEventService ic chConfig).isPanic = true ∧
      (f.CreateEventService ic chConfig).isErrorResult = false ∧
      f.CreateChannelMembership cfg = .returned none (some (.new "Not implemented")) ∧
      (f.CreateChannelMembership cfg).isErrorResult = true :=
  ⟨rfl, rfl, rfl, rfl, rfl⟩

end Mocks

/-! ## Theorems: identity options (`pkg/fabsdk/context.go`) -/

namespace Fabsdk

/-- What `newIdentity` does once the client configuration is there and the option loop has
finished without error. -/
theorem newIdentityTraced_of_applied (sdk : FabricSDK) (options : List ContextOption)
    (cfg : ClientConfig) (opts : identityOptions) (hcfg : sdk.Client = .ok cfg)
    (hopts : applyOptions { identity := none, orgName := cfg.Organization, userName := "" }
      options = .ok opts) :
    sdk.newIdentityTraced options =
      if opts.identity = none ∧ opts.userName = "" then ((none, some ErrAnonymousIdentity), [])
      else
        match opts.identity with
        | some identity => ((some identity, none), [])
        | none =>
          if opts.userName = "" ∨ opts.orgName = "" then
            ((none, some (.new "invalid options to create identity")), [])
          else
            match sdk.IdentityManager opts.orgName with
            | none =>
              ((none, some (.new "invalid options to create identity, invalid org name")),
                [.IdentityManager opts.orgName])
            | some mgr =>
              match mgr.GetUser opts.userName with
              | (_, some err) =>
                ((none, some err), [.IdentityManager opts.orgName,
                  .GetUser opts.orgName opts.userName])
              | (user, none) =>
                ((user, none), [.IdentityManager opts.orgName,
                  .GetUser opts.orgName opts.userName]) := by
  unfold FabricSDK.newIdentityTraced
  rw [hcfg]
  simp only [hopts]

/-- C10: when the option loop ends with a non-nil identity in the options, `newIdentity`
returns exactly that identity and a nil error, whatever user name and organization the
options hold, and no identity manager is consulted. -/
theorem newIdentity_returns_given_identity (sdk : FabricSDK) (options : List ContextOption)
    (cfg : ClientConfig) (opts : identityOptions) (identity : Identity)
    (hcfg : sdk.Client = .ok cfg)
    (hopts : applyOptions { identity := none, orgName := cfg.Organization, userName := "" }
      options = .ok opts)
    (hid : opts.identity = some identity) :
    sdk.newIdentity options = (some identity, none) ∧ (sdk.newIdentityTraced options).2 = [] := by
  have h := newIdentityTraced_of_applied sdk options cfg opts hcfg hopts
  simp only [hid] at h
  simp [FabricSDK.newIdentity, h]

/-- Witness for C10: an identity given between a user option and an unknown organization. -/
theorem newIdentity_returns_given_identity_witness :
    sdkNoManagers.newIdentity [WithUser "", WithIdentity (some alice), WithOrg "nowhere"] =
        (some alice, none) ∧
      (sdkNoManagers.newIdentityTraced
        [WithUser "", WithIdentity (some alice), WithOrg "nowhere"]).2 = [] :=
  newIdentity_returns_given_identity sdkNoManagers
    [WithUser "", WithIdentity (some alice), WithOrg "nowhere"] ⟨"org1"⟩
    ⟨some alice, "nowhere", ""⟩ alice rfl rfl rfl

/-- C9 (as amended): with the client configuration retrieved and every option returning nil,
`newIdentity` returns `ErrAnonymousIdentity` if and only if the options end with no identity
and an empty user name, provided the identity manager, when one is consulted (no identity,
user name and organization not empty, a manager for the organization), does not itself
return `ErrAnonymousIdentity` from `GetUser`; it is returned for the empty option list and
for `WithOrg` alone, whatever the identity managers do. -/
theorem newIdentity_anonymous_iff (sdk : FabricSDK) (options : List ContextOption)
    (cfg : ClientConfig) (opts : identityOptions) (hcfg : sdk.Client = .ok cfg)
    (hopts : applyOptions { identity := none, orgName := cfg.Organization, userName := "" }
      options = .ok opts)
    (hmgr : opts.identity = none → opts.userName ≠ "" → opts.orgName ≠ "" →
      ∀ mgr, sdk.IdentityManager opts.orgName = some mgr →
        (mgr.GetUser opts.userName).2 ≠ some ErrAnonymousIdentity) :
    ((sdk.newIdentity options).2 = some ErrAnonymousIdentity ↔
        opts.identity = none ∧ opts.userName = "") ∧
      sdk.newIdentity [] = (none, some ErrAnonymousIdentity) ∧
      ∀ org, sdk.newIdentity [WithOrg org] = (none, some ErrAnonymousIdentity) := by
  refine ⟨?_, ?_, ?_⟩
  · have h := newIdentityTraced_of_applied sdk options cfg opts hcfg hopts
    unfold FabricSDK.newIdentity
    rw [h]
    by_cases hanon : opts.identity = none ∧ opts.userName = ""
    · simp [hanon]
    · simp only [hanon, if_false, iff_false]
      cases hid : opts.identity with
      | some identity => simp
      | none =>
        simp only
        by_cases hinv : opts.userName = "" ∨ opts.orgName = ""
        · simp [hinv, ErrAnonymousIdentity]
        · simp only [hinv, if_false]
          cases hm : sdk.IdentityManager opts.orgName with
          | none => simp [ErrAnonymousIdentity]
          | some mgr =>
            have hne := hmgr hid (fun e => hinv (Or.inl e)) (fun e => hinv (Or.inr e)) mgr hm
            simp only
            rcases hg : mgr.GetUser opts.userName with ⟨user, _ | err⟩
            · simp
            · rw [hg] at hne
              simpa using hne
  · have h := newIdentityTraced_of_applied sdk [] cfg _ hcfg rfl
    simp [FabricSDK.newIdentity, h]
  · intro org
    have h := newIdentityTraced_of_applied sdk [WithOrg org] cfg _ hcfg rfl
    simp [FabricSDK.newIdentity, h]

/-- Witness for C9: on an SDK whose manager of `org2` is consulted and knows the user, a set
user name does not give `ErrAnonymousIdentity`; on an SDK whose managers answer with
`ErrAnonymousIdentity`, the empty option list and `WithOrg` alone still give it, no manager
being consulted. -/
theorem newIdentity_anonymous_iff_witness :
    ¬ (sdkOrg2.newIdentity [WithUser "alice", WithOrg "org2"]).2 = some ErrAnonymousIdentity ∧
      sdkAnonymousManager.newIdentity [] = (none, some ErrAnonymousIdentity) ∧
      ∀ org, sdkAnonymousManager.newIdentity [WithOrg org] =
        (none, some ErrAnonymousIdentity) :=
  ⟨fun h =>
      absurd ((newIdentity_anonymous_iff sdkOrg2 [WithUser "alice", WithOrg "org2"] ⟨"org1"⟩
        ⟨none, "org2", "alice"⟩ rfl rfl
        (fun _ _ _ mgr hm => by
          have hm' : mgr = ⟨fun userName =>
              if userName = "alice" then (some ⟨"Org2MSP", "alice", [4, 5]⟩, none)
              else (none, some (.sentinel "msp.ErrUserNotFound" "user not found"))⟩ :=
            (Option.some.inj hm).symm
          rw [hm']
          decide)).1.mp h).2 (by decide),
    (newIdentity_anonymous_iff sdkAnonymousManager [] ⟨"org1"⟩ ⟨none, "org1", ""⟩ rfl rfl
      (fun _ hu => absurd rfl hu)).2⟩

/-- Counterexample to C9 as stated: the configuration is retrieved, the one option `WithUser`
returns nil and leaves user name `u`, and `newIdentity` still returns `ErrAnonymousIdentity`,
handed through from the identity manager. -/
theorem newIdentity_anonymous_iff_fails :
    sdkAnonymousManager.Client = .ok ⟨"org1"⟩ ∧
      applyOptions { identity := none, orgName := "org1", userName := "" } [WithUser "u"] =
        .ok ⟨none, "org1", "u"⟩ ∧
      ¬ ((sdkAnonymousManager.newIdentity [WithUser "u"]).2 = some ErrAnonymousIdentity ↔
        (none : Option Identity) = none ∧ "u" = "") := by
  refine ⟨rfl, rfl, ?_⟩
  intro h
  have h2 := h.mp rfl
  exact absurd h2.2 (by decide)

end Fabsdk

/-! ## Theorems: request context (`pkg/context/context.go`) -/

namespace Context

theorem applyReqOptions_append (fs : List ReqContextOptions) (f : ReqContextOptions) :
    applyReqOptions (fs ++ [f]) = f (applyReqOptions fs) := by
  simp [applyReqOptions, List.foldl_append]

/-- The option loop, on options of the package: each field ends with the value of the last
option that sets it. -/
theorem applyReqOptions_inEffect (options : List ReqOption) :
    (applyReqOptions (options.map ReqOption.toOption)).timeout = timeoutInEffect options ∧
      (applyReqOptions (options.map ReqOption.toOption)).timeoutType =
        timeoutTypeInEffect options ∧
      (applyReqOptions (options.map ReqOption.toOption)).parentContext =
        parentInEffect options := by
  induction options using List.reverseRecOn with
  | nil => exact ⟨rfl, rfl, rfl⟩
  | append_singleton os o ih =>
    rw [List.map_append, List.map_singleton, applyReqOptions_append]
    obtain ⟨h1, h2, h3⟩ := ih
    cases o with
    | withTimeoutType t =>
      refine ⟨?_, ?_, ?_⟩
      · simpa [ReqOption.toOption, WithTimeoutType, timeoutInEffect] using h1
      · simp [ReqOption.toOption, WithTimeoutType, timeoutTypeInEffect]
      · simpa [ReqOption.toOption, WithTimeoutType, parentInEffect] using h3
    | withTimeout d =>
      refine ⟨?_, ?_, ?_⟩
      · simp [ReqOption.toOption, WithTimeout, timeoutInEffect]
      · simpa [ReqOption.toOption, WithTimeout, timeoutTypeInEffect] using h2
      · simpa [ReqOption.toOption, WithTimeout, parentInEffect] using h3
    | withReqContext p =>
      refine ⟨?_, ?_, ?_⟩
      · simpa [ReqOption.toOption, WithReqContext, timeoutInEffect] using h1
      · simpa [ReqOption.toOption, WithReqContext, timeoutTypeInEffect] using h2
      · simp [ReqOption.toOption, WithReqContext, parentInEffect]

/-- What `NewRequest` returns for a client whose infrastructure provider is there, once the
timeout is known. -/
theorem newRequest_returns (c : Client) (infraProvider : InfraProvider)
    (fs : List ReqContextOptions) (timeout : Duration)
    (hinfra : c.InfraProvider = some infraProvider)
    (ht : (if (applyReqOptions fs).timeout > 0 then some (applyReqOptions fs).timeout
      else c.Config.map fun config => config.TimeoutOrDefault (applyReqOptions fs).timeoutType)
      = some timeout) :
    NewRequest (some c) fs =
      .returned (.withTimeout
        (.withValue
          (.withValue ((applyReqOptions fs).parentContext.getD .background)
            reqContextCommManager (infraProvider.CommManager.map .commManager))
          reqContextClient (some (.client c)))
        timeout) := by
  simp only [NewRequest, ht, hinfra]

/-- C11: for a client whose infrastructure provider is there, `NewRequest` returns a context
whose timeout is the duration of the `WithTimeout` option in effect when that duration is
positive (whatever `WithTimeoutType` says, and without reading the configuration), and
otherwise `client.Config().TimeoutOrDefault(t)` with `t` the type of the `WithTimeoutType`
option in effect, which is `-1` when no such option was passed; a zero or negative
`WithTimeout` thus counts as not specified. -/
theorem newRequest_timeout (c : Client) (infraProvider : InfraProvider)
    (options : List ReqOption) (hinfra : c.InfraProvider = some infraProvider) :
    (0 < timeoutInEffect options →
        ∃ ctx, NewRequest (some c) (options.map ReqOption.toOption) = .returned ctx ∧
          ctx.requestTimeout = some (timeoutInEffect options)) ∧
      (timeoutInEffect options ≤ 0 → ∀ config, c.Config = some config →
        ∃ ctx, NewRequest (some c) (options.map ReqOption.toOption) = .returned ctx ∧
          ctx.requestTimeout = some (config.TimeoutOrDefault (timeoutTypeInEffect options))) ∧
      ((∀ o ∈ options, ∀ t, o ≠ .withTimeoutType t) → timeoutTypeInEffect options = -1) ∧
      ((∀ o ∈ options, ∀ d, o ≠ .withTimeout d) → timeoutInEffect options = 0) ∧
      (∀ (os : List ReqOption) (d : Duration), timeoutInEffect (os ++ [.withTimeout d]) = d) ∧
      (∀ (os : List ReqOption) (t : TimeoutType),
        timeoutInEffect (os ++ [.withTimeoutType t]) = timeoutInEffect os ∧
        timeoutTypeInEffect (os ++ [.withTimeoutType t]) = t) := by
  obtain ⟨h1, h2, _⟩ := applyReqOptions_inEffect options
  refine ⟨?_, ?_, ?_, ?_, ?_, ?_⟩
  · intro hpos
    refine ⟨_, newRequest_returns c infraProvider _ (timeoutInEffect options) hinfra ?_, rfl⟩
    rw [h1]
    simp [hpos]
  · intro hle config hcfg
    refine ⟨_, newRequest_returns c infraProvider _
      (config.TimeoutOrDefault (timeoutTypeInEffect options)) hinfra ?_, rfl⟩
    rw [h1, h2, hcfg]
    have : ¬ timeoutInEffect options > 0 := not_lt.mpr hle
    simp [this]
  · intro hno
    have : (options.reverse.findSome? fun o =>
        match o with
        | .withTimeoutType timeoutType => some timeoutType
        | _ => none) = none := by
      rw [List.findSome?_eq_none_iff]
      intro o ho
      cases o with
      | withTimeoutType t => exact absurd rfl (hno _ (List.mem_reverse.mp ho) t)
      | withTimeout d => rfl
      | withReqContext p => rfl
    simp [timeoutTypeInEffect, this]
  · intro hno
    have : (options.reverse.findSome? fun o =>
        match o with
        | .withTimeout timeout => some timeout
        | _ => none) = none := by
      rw [List.findSome?_eq_none_iff]
      intro o ho
      cases o with
      | withTimeoutType t => rfl
      | withTimeout d => exact absurd rfl (hno _ (List.mem_reverse.mp ho) d)
      | withReqContext p => rfl
    simp [timeoutInEffect, this]
  · intro os d
    simp [timeoutInEffect]
  · intro os t
    simp [timeoutInEffect, timeoutTypeInEffect]

/-- Witness for C11: a positive `WithTimeout` wins over `WithTimeoutType`, even for a client
without configuration. -/
theorem newRequest_timeout_witness :
    (0 : Duration) < timeoutInEffect [.withTimeoutType 2, .withTimeout 5] ∧
      ∃ ctx, NewRequest (some clientNoConfig)
          ([ReqOption.withTimeoutType 2, .withTimeout 5].map ReqOption.toOption) =
          .returned ctx ∧
        ctx.requestTimeout = some (timeoutInEffect [.withTimeoutType 2, .withTimeout 5]) :=
  ⟨by decide,
    (newRequest_timeout clientNoConfig ⟨"infra", none⟩ [.withTimeoutType 2, .withTimeout 5]
      rfl).1 (by decide)⟩

/-- C12: whenever `NewRequest` returns a context for a non-nil client, whatever the options,
`RequestClientContext` of that context is that client with `ok = true`, also when the parent
given through `WithReqContext` came from `NewRequest` with another client; `NewRequest`
returns a context when the client's infrastructure provider and configuration are there; the
background context, and every context without a value under a `reqContextKey`, gives
`ok = false`. -/
theorem requestClientContext_newRequest (c : Client) (options : List ReqContextOptions) :
    (∀ ctx, NewRequest (some c) options = .returned ctx →
        RequestClientContext ctx = (some c, true)) ∧
      (∀ infraProvider config, c.InfraProvider = some infraProvider →
        c.Config = some config → ∃ ctx, NewRequest (some c) options = .returned ctx) ∧
      (∀ (c' : Client) (options' : List ReqContextOptions) (parent ctx : ReqContext),
        NewRequest (some c') options' = .returned parent →
        NewRequest (some c) (options ++ [WithReqContext (some parent)]) = .returned ctx →
          RequestClientContext parent = (some c', true) ∧
          RequestClientContext ctx = (some c, true)) ∧
      RequestClientContext .background = (none, false) ∧
      (∀ ctx : ReqContext, ctx.foreignOnly = true → RequestClientContext ctx = (none, false)) := by
  have key : ∀ (k : Client) (fs : List ReqContextOptions) (ctx : ReqContext),
      NewRequest (some k) fs = .returned ctx → RequestClientContext ctx = (some k, true) := by
    intro k fs ctx h
    simp only [NewRequest] at h
    split at h
    · cases h
    · split at h
      · cases h
      · injection h with h
        subst h
        simp [RequestClientContext, ReqContext.Value]
  refine ⟨key c options, ?_, ?_, rfl, ?_⟩
  · intro infraProvider config hinfra hcfg
    by_cases hpos : (applyReqOptions options).timeout > 0
    · exact ⟨_, newRequest_returns c infraProvider options (applyReqOptions options).timeout
        hinfra (by simp [hpos])⟩
    · exact ⟨_, newRequest_returns c infraProvider options
        (config.TimeoutOrDefault (applyReqOptions options).timeoutType) hinfra
        (by simp [hpos, hcfg])⟩
  · intro c' options' parent ctx hp hc
    exact ⟨key c' options' parent hp, key c _ ctx hc⟩
  · intro ctx hf
    have hval : ∀ (x : ReqContext) (name : String), x.foreignOnly = true →
        x.Value (.reqContextKey name) = none := by
      intro x name
      induction x with
      | background => intro _; rfl
      | withValue parent k val ih =>
        intro hx
        cases k with
        | reqContextKey n => simp [ReqContext.foreignOnly] at hx
        | foreign n =>
          simp only [ReqContext.foreignOnly] at hx
          simp [ReqContext.Value, ih hx]
      | withTimeout parent t ih =>
        intro hx
        simp only [ReqContext.foreignOnly] at hx
        simp [ReqContext.Value, ih hx]
    simp [RequestClientContext, reqContextClient, hval ctx _ hf]

/-- Witness for C12: a request context of one client, built on a parent request context of
another client. -/
theorem requestClientContext_newRequest_witness :
    NewRequest (some clientNoConfig) [WithTimeout 5] =
        .returned (.withTimeout (.withValue (.withValue .background reqContextCommManager none)
          reqContextClient (some (.client clientNoConfig))) 5) ∧
      RequestClientContext (.withTimeout (.withValue (.withValue
        (.withTimeout (.withValue (.withValue .background reqContextCommManager none)
          reqContextClient (some (.client clientNoConfig))) 5)
        reqContextCommManager (some (.commManager ⟨"comm"⟩)))
        reqContextClient (some (.client clientFull))) 30) = (some clientFull, true) :=
  ⟨rfl,
    (requestClientContext_newRequest clientFull
      [WithReqContext (some (.withTimeout (.withValue (.withValue .background
        reqContextCommManager none) reqContextClient (some (.client clientNoConfig))) 5))]).1
      _ rfl⟩

theorem newProvider_append (params : List SDKContextParams) (param : SDKContextParams) :
    NewProvider (params ++ [param]) = param (NewProvider params) := by
  simp [NewProvider, List.foldl_append]

theorem lastGiven_append {α : Type} (select : Param → Option (Option α)) (params : List Param)
    (p : Param) :
    lastGiven select (params ++ [p]) =
      match select p with
      | some v => v
      | none => lastGiven select params := by
  unfold lastGiven
  rw [List.reverse_append, List.reverse_singleton, List.singleton_append, List.findSome?_cons]
  cases select p with
  | none => rfl
  | some v => rfl

/-- C17: `NewProvider` starts from the empty provider and applies its parameters left to
right; each `With*` parameter replaces its own field and leaves the other eight as they
were; so for every list of `With*` parameters each getter returns the value given by the last
matching `With*` of the list, and nil when the list has none. -/
theorem newProvider_getters (params : List Param) :
    (NewProvider (params.map Param.toParam)).Config = lastGiven Param.config? params ∧
      (NewProvider (params.map Param.toParam)).UserStore = lastGiven Param.userStore? params ∧
      (NewProvider (params.map Param.toParam)).CryptoSuite =
        lastGiven Param.cryptoSuite? params ∧
      (NewProvider (params.map Param.toParam)).DiscoveryProvider =
        lastGiven Param.discoveryProvider? params ∧
      (NewProvider (params.map Param.toParam)).SelectionProvider =
        lastGiven Param.selectionProvider? params ∧
      (NewProvider (params.map Param.toParam)).SigningManager =
        lastGiven Param.signingManager? params ∧
      (NewProvider (params.map Param.toParam)).InfraProvider =
        lastGiven Param.infraProvider? params ∧
      (NewProvider (params.map Param.toParam)).ChannelProvider =
        lastGiven Param.channelProvider? params ∧
      (NewProvider (params.map Param.toParam)).mspProvider =
        lastGiven Param.mspProvider? params ∧
      NewProvider [] = Provider.empty ∧
      (∀ (fs : List SDKContextParams) (f : SDKContextParams),
        NewProvider (fs ++ [f]) = f (NewProvider fs)) ∧
      (∀ (x : Provider),
        (∀ v, WithConfig v x = { x with config := v }) ∧
        (∀ v, WithUserStore v x = { x with userStore := v }) ∧
        (∀ v, WithCryptoSuite v x = { x with cryptoSuite := v }) ∧
        (∀ v, WithDiscoveryProvider v x = { x with discoveryProvider := v }) ∧
        (∀ v, WithSelectionProvider v x = { x with selectionProvider := v }) ∧
        (∀ v, WithSigningManager v x = { x with signingManager := v }) ∧
        (∀ v, WithMSPProvider v x = { x with mspProvider := v }) ∧
        (∀ v, WithInfraProvider v x = { x with infraProvider := v }) ∧
        (∀ v, WithChannelProvider v x = { x with channelProvider := v })) := by
  have hget : (NewProvider (params.map Param.toParam)).config = lastGiven Param.config? params ∧
      (NewProvider (params.map Param.toParam)).userStore = lastGiven Param.userStore? params ∧
      (NewProvider (params.map Param.toParam)).cryptoSuite =
        lastGiven Param.cryptoSuite? params ∧
      (NewProvider (params.map Param.toParam)).discoveryProvider =
        lastGiven Param.discoveryProvider? params ∧
      (NewProvider (params.map Param.toParam)).selectionProvider =
        lastGiven Param.selectionProvider? params ∧
      (NewProvider (params.map Param.toParam)).signingManager =
        lastGiven Param.signingManager? params ∧
      (NewProvider (params.map Param.toParam)).infraProvider =
        lastGiven Param.infraProvider? params ∧
      (NewProvider (params.map Param.toParam)).channelProvider =
        lastGiven Param.channelProvider? params ∧
      (NewProvider (params.map Param.toParam)).mspProvider =
        lastGiven Param.mspProvider? params := by
    induction params using List.reverseRecOn with
    | nil => exact ⟨rfl, rfl, rfl, rfl, rfl, rfl, rfl, rfl, rfl⟩
    | append_singleton ps p ih =>
      obtain ⟨h1, h2, h3, h4, h5, h6, h7, h8, h9⟩ := ih
      rw [List.map_append, List.map_singleton, newProvider_append]
      simp only [lastGiven_append]
      cases p <;>
        simp [Param.toParam, WithConfig, WithUserStore, WithCryptoSuite, WithDiscoveryProvider,
          WithSelectionProvider, WithSigningManager, WithMSPProvider, WithInfraProvider,
          WithChannelProvider, Param.config?, Param.userStore?, Param.cryptoSuite?,
          Param.discoveryProvider?, Param.selectionProvider?, Param.signingManager?,
          Param.mspProvider?, Param.infraProvider?, Param.channelProvider?,
          h1, h2, h3, h4, h5, h6, h7, h8, h9]
  obtain ⟨h1, h2, h3, h4, h5, h6, h7, h8, h9⟩ := hget
  refine ⟨h1, h2, h3, h4, h5, h6, h7, h8, h9, rfl, newProvider_append, ?_⟩
  intro x
  exact ⟨fun _ => rfl, fun _ => rfl, fun _ => rfl, fun _ => rfl, fun _ => rfl, fun _ => rfl,
    fun _ => rfl, fun _ => rfl, fun _ => rfl⟩

/-- Witness for C17: two user stores and one crypto suite; the later user store wins, the
configuration stays nil. -/
theorem newProvider_getters_witness :
    (NewProvider ([Param.withUserStore (some ⟨"first"⟩), .withCryptoSuite (some ⟨"sw"⟩),
        .withUserStore (some ⟨"second"⟩)].map Param.toParam)).UserStore = some ⟨"second"⟩ ∧
      (NewProvider ([Param.withUserStore (some ⟨"first"⟩), .withCryptoSuite (some ⟨"sw"⟩),
        .withUserStore (some ⟨"second"⟩)].map Param.toParam)).CryptoSuite = some ⟨"sw"⟩ ∧
      lastGiven Param.infraProvider? [Param.withUserStore (some ⟨"first"⟩),
        .withCryptoSuite (some ⟨"sw"⟩), .withUserStore (some ⟨"second"⟩)] = none :=
  ⟨(newProvider_getters [.withUserStore (some ⟨"first"⟩), .withCryptoSuite (some ⟨"sw"⟩),
      .withUserStore (some ⟨"second"⟩)]).2.1.trans rfl,
    rfl, rfl⟩

end Context

/-! ## Theorems: request options (`pkg/client/resmgmt/opts.go`) -/

namespace Resmgmt

/-- The loop of `WithTargetURLs` when every URL resolves: the created peers are appended in
URL order. -/
theorem targetsFromURLs_ok (ctx : Client) (urls : List String) (targets : List (Option Peer))
    (h : ∀ url ∈ urls, resolves ctx url) :
    targetsFromURLs ctx urls targets = .ok (targets ++ urls.map (peerFromURL ctx)) := by
  induction urls generalizing targets with
  | nil => simp [targetsFromURLs]
  | cons url urls ih =>
    obtain ⟨h1, h2⟩ := h url (List.mem_cons_self _ _)
    have hrest : ∀ u ∈ urls, resolves ctx u := fun u hu => h u (List.mem_cons_of_mem _ hu)
    rcases hl : ctx.NetworkPeerConfigFromURL url with ⟨peerCfg, e1⟩
    rw [hl] at h1 h2
    simp only at h1 h2
    subst h1
    rcases hc : ctx.CreatePeerFromConfig peerCfg with ⟨peer, e2⟩
    rw [hc] at h2
    simp only at h2
    subst h2
    simp only [targetsFromURLs, hl, hc]
    rw [ih _ hrest]
    simp [peerFromURL, hl, hc]

/-- C13: when the peer-configuration lookup and the peer creation succeed for every URL of the
list, `WithTargetURLs(urls...)` does what `WithTargets(p1, ..., pn)` does, `pi` being the peer
created from the i-th URL: it returns nil, `opts.Targets` is the list of those peers, of the
length and in the order of `urls`, and no other field changes. -/
theorem withTargetURLs_eq_withTargets (ctx : Client) (urls : List String)
    (opts : requestOptions) (h : ∀ url ∈ urls, resolves ctx url) :
    WithTargetURLs urls ctx opts = WithTargets (urls.map (peerFromURL ctx)) ctx opts ∧
      (WithTargetURLs urls ctx opts).2 = none ∧
      (WithTargetURLs urls ctx opts).1 = { opts with Targets := urls.map (peerFromURL ctx) } ∧
      (WithTargetURLs urls ctx opts).1.Targets.length = urls.length ∧
      (∀ (i : Nat) (hi : i < urls.length),
        (WithTargetURLs urls ctx opts).1.Targets[i]? = some (peerFromURL ctx urls[i])) := by
  have hloop := targetsFromURLs_ok ctx urls [] h
  rw [List.nil_append] at hloop
  have heq : WithTargetURLs urls ctx opts = WithTargets (urls.map (peerFromURL ctx)) ctx opts := by
    simp only [WithTargetURLs, hloop]
  refine ⟨heq, ?_, ?_, ?_, ?_⟩
  · rw [heq]; rfl
  · rw [heq]; rfl
  · rw [heq]; simp [WithTargets]
  · intro i hi
    rw [heq]
    simp [WithTargets, List.getElem?_map, List.getElem?_eq_getElem hi]

/-- Witness for C13: two known peers. -/
theorem withTargetURLs_eq_withTargets_witness :
    (∀ url ∈ ["peer0:7051", "peer1:7051"], resolves sampleClient url) ∧
      WithTargetURLs ["peer0:7051", "peer1:7051"] sampleClient noOptions =
        ({ noOptions with
           Targets := [some ⟨"peer0:7051", "Org1MSP"⟩, some ⟨"peer1:7051", "Org2MSP"⟩] },
          none) := by
  have h : ∀ url ∈ ["peer0:7051", "peer1:7051"], resolves sampleClient url := by
    intro url hu
    simp only [List.mem_cons, List.mem_singleton, List.not_mem_nil, or_false] at hu
    rcases hu with rfl | rfl
    · exact ⟨rfl, rfl⟩
    · exact ⟨rfl, rfl⟩
  exact ⟨h, (withTargetURLs_eq_withTargets sampleClient ["peer0:7051", "peer1:7051"]
    noOptions h).1.trans rfl⟩

/-- C14: `WithOrdererURL(url)` returns nil exactly when the lookup returns a non-nil
configuration without error and the orderer creation succeeds, and then sets `opts.Orderer`
to the created orderer and nothing else; a lookup error gives that error wrapped in `orderer
not found`, a nil configuration gives the error `orderer not found`, a creation error gives
that error wrapped in `creating orderer from config failed`; whenever an error is returned
`opts` is unchanged. -/
theorem withOrdererURL_cases (ctx : Client) (url : String) (opts : requestOptions) :
    ((WithOrdererURL url ctx opts).2 = none ↔
        ∃ cfg, ctx.OrdererConfig url = (some cfg, none) ∧
          (ctx.CreateOrdererFromConfig (some cfg)).2 = none) ∧
      (∀ cfg, ctx.OrdererConfig url = (some cfg, none) →
        (ctx.CreateOrdererFromConfig (some cfg)).2 = none →
          WithOrdererURL url ctx opts =
            ({ opts with Orderer := (ctx.CreateOrdererFromConfig (some cfg)).1 }, none)) ∧
      (∀ cfg err, ctx.OrdererConfig url = (cfg, some err) →
        WithOrdererURL url ctx opts = (opts, some (.withMessage err "orderer not found"))) ∧
      (ctx.OrdererConfig url = (none, none) →
        WithOrdererURL url ctx opts = (opts, some (.new "orderer not found"))) ∧
      (∀ cfg err, ctx.OrdererConfig url = (some cfg, none) →
        (ctx.CreateOrdererFromConfig (some cfg)).2 = some err →
          WithOrdererURL url ctx opts =
            (opts, some (.withMessage err "creating orderer from config failed"))) ∧
      ((WithOrdererURL url ctx opts).2 ≠ none → (WithOrdererURL url ctx opts).1 = opts) := by
  unfold WithOrdererURL
  rcases hl : ctx.OrdererConfig url with ⟨cfg, e1⟩
  cases e1 with
  | some err => simp
  | none =>
    cases cfg with
    | none => simp
    | some c =>
      rcases hc : ctx.CreateOrdererFromConfig (some c) with ⟨orderer, e2⟩
      cases e2 with
      | some err =>
        simp only [hc]
        refine ⟨by simp [hc], ?_, by simp, by simp, ?_, by simp⟩
        · intro cfg he hn
          have hcfg : c = cfg := by simpa using he
          subst hcfg
          rw [hc] at hn
          simp at hn
        · intro cfg err' he hn
          have hcfg : c = cfg := by simpa using he
          subst hcfg
          rw [hc] at hn
          simp only [Option.some.injEq] at hn
          rw [hn]
      | none =>
        simp only [hc, WithOrderer]
        refine ⟨by simp [hc], ?_, by simp, by simp, ?_, by simp⟩
        · intro cfg he _
          have hcfg : c = cfg := by simpa using he
          subst hcfg
          rw [hc]
        · intro cfg err' he hn
          have hcfg : c = cfg := by simpa using he
          subst hcfg
          rw [hc] at hn
          simp at hn

/-- Witness for C14: a known orderer URL and an unknown one. -/
theorem withOrdererURL_cases_witness :
    WithOrdererURL "orderer:7050" sampleClient noOptions =
        ({ noOptions with Orderer := some ⟨"orderer:7050"⟩ }, none) ∧
      WithOrdererURL "nowhere:7050" sampleClient noOptions =
        (noOptions, some (.new "orderer not found")) :=
  ⟨(withOrdererURL_cases sampleClient "orderer:7050" noOptions).2.1 ⟨"orderer:7050"⟩ rfl rfl,
    (withOrdererURL_cases sampleClient "nowhere:7050" noOptions).2.2.2.1 rfl⟩

end Resmgmt

/-! ## Theorems: identity resolution by user name (`pkg/fabsdk/context.go`) -/

namespace Fabsdk

theorem applyOptions_append (init : identityOptions) (options : List ContextOption)
    (option : ContextOption) :
    applyOptions init (options ++ [option]) =
      match applyOptions init options with
      | .error err => .error err
      | .ok opts =>
        match option opts with
        | (_, some err) => .error err
        | (opts', none) => .ok opts' := by
  induction options generalizing init with
  | nil =>
    simp only [List.nil_append, applyOptions]
  | cons f fs ih =>
    simp only [List.cons_append, applyOptions]
    rcases f init with ⟨o, _ | e⟩
    · exact ih o
    · rfl

/-- The option loop of `newIdentity`, on options of the package: no option fails and each
field ends with the value of the last option that sets it. -/
theorem applyOptions_inEffect (org : String) (options : List IdentityOption) :
    applyOptions { identity := none, orgName := org, userName := "" }
        (options.map IdentityOption.toOption) =
      .ok { identity := identityInEffect options, orgName := orgInEffect org options,
            userName := userInEffect options } := by
  induction options using List.reverseRecOn with
  | nil => rfl
  | append_singleton os o ih =>
    rw [List.map_append, List.map_singleton, applyOptions_append, ih]
    cases o <;>
      simp [IdentityOption.toOption, WithUser, WithIdentity, WithOrg, identityInEffect,
        orgInEffect, userInEffect]

/-- C16: with the client configuration retrieved, no identity in effect and a non-empty user
name `u` in effect, let `o` be the organization in effect, that of the last `WithOrg` and the
configuration's organization when there is none.  If `o` is not empty, `newIdentity` asks the
identity manager of `o` for `u` and nothing else: it returns the error of `GetUser(u)` when
there is one and its user otherwise, and when no identity manager exists for `o` it fails with
the error `invalid options to create identity, invalid org name`. -/
theorem newIdentity_resolves_user (sdk : FabricSDK) (cfg : ClientConfig)
    (options : List IdentityOption) (hcfg : sdk.Client = .ok cfg)
    (hid : identityInEffect options = none) (hu : userInEffect options ≠ "")
    (ho : orgInEffect cfg.Organization options ≠ "") :
    (∀ mgr, sdk.IdentityManager (orgInEffect cfg.Organization options) = some mgr →
        sdk.newIdentity (options.map IdentityOption.toOption) =
          (match mgr.GetUser (userInEffect options) with
           | (_, some err) => (none, some err)
           | (user, none) => (user, none)) ∧
        (sdk.newIdentityTraced (options.map IdentityOption.toOption)).2 =
          [.IdentityManager (orgInEffect cfg.Organization options),
            .GetUser (orgInEffect cfg.Organization options) (userInEffect options)]) ∧
      (sdk.IdentityManager (orgInEffect cfg.Organization options) = none →
        sdk.newIdentity (options.map IdentityOption.toOption) =
          (none, some (.new "invalid options to create identity, invalid org name"))) ∧
      ((∀ o ∈ options, ∀ org, o ≠ .withOrg org) →
        orgInEffect cfg.Organization options = cfg.Organization) ∧
      (∀ (pre post : List IdentityOption) (org : String),
        (∀ o ∈ post, ∀ org', o ≠ .withOrg org') →
          orgInEffect cfg.Organization (pre ++ .withOrg org :: post) = org) := by
  have h := newIdentityTraced_of_applied sdk (options.map IdentityOption.toOption) cfg _ hcfg
    (applyOptions_inEffect cfg.Organization options)
  have hnone : ∀ l : List IdentityOption, (∀ o ∈ l, ∀ org, o ≠ .withOrg org) →
      (l.reverse.findSome? fun o =>
        match o with
        | .withOrg org => some org
        | _ => none) = none := by
    intro l hl
    rw [List.findSome?_eq_none_iff]
    intro o hmem
    cases o with
    | withUser u => rfl
    | withIdentity i => rfl
    | withOrg org => exact absurd rfl (hl _ (List.mem_reverse.mp hmem) org)
  simp only [hid, hu, ho, and_false, or_self, if_false] at h
  refine ⟨?_, ?_, ?_, ?_⟩
  · intro mgr hm
    rw [hm] at h
    simp only at h
    unfold FabricSDK.newIdentity
    rw [h]
    rcases mgr.GetUser (userInEffect options) with ⟨user, _ | err⟩ <;> exact ⟨rfl, rfl⟩
  · intro hm
    rw [hm] at h
    unfold FabricSDK.newIdentity
    rw [h]
  · intro hno
    simp [orgInEffect, hnone options hno]
  · intro pre post org hno
    simp [orgInEffect, List.findSome?_append, hnone post hno]

/-- Witness for C16: `WithOrg` chooses the identity manager, which knows the user. -/
theorem newIdentity_resolves_user_witness :
    sdkOrg2.newIdentity ([IdentityOption.withUser "alice", .withOrg "org2"].map
        IdentityOption.toOption) = (some ⟨"Org2MSP", "alice", [4, 5]⟩, none) ∧
      (sdkOrg2.newIdentityTraced ([IdentityOption.withUser "alice", .withOrg "org2"].map
        IdentityOption.toOption)).2 = [.IdentityManager "org2", .GetUser "org2" "alice"] ∧
      sdkOrg2.newIdentity ([IdentityOption.withUser "alice"].map IdentityOption.toOption) =
        (none, some (.new "invalid options to create identity, invalid org name")) :=
  ⟨((newIdentity_resolves_user sdkOrg2 ⟨"org1"⟩ [.withUser "alice", .withOrg "org2"] rfl rfl
      (by decide) (by decide)).1 _ rfl).1.trans rfl,
    ((newIdentity_resolves_user sdkOrg2 ⟨"org1"⟩ [.withUser "alice", .withOrg "org2"] rfl rfl
      (by decide) (by decide)).1 _ rfl).2.trans rfl,
    (newIdentity_resolves_user sdkOrg2 ⟨"org1"⟩ [.withUser "alice"] rfl rfl
      (by decide) (by decide)).2.1 rfl⟩

end Fabsdk
